import Mathlib

/-!
Verification of the torch backend of the ivy statistical / elementwise API
(`ivy/functional/backends/torch/statistical.py` and
`ivy/functional/backends/torch/extensions/elementwise.py`).

Tensors are shallowly embedded as a shape (a list of extents) together with a
total valuation on integer multi-indices; only the values at indices that are
valid for the shape are meaningful.  Scalar values are rationals for the
dispatch / scan / reduction model, and `Option ℝ` (with `none` playing the
role of IEEE NaN) for the variance / standard-deviation model.

The torch primitives (`torch.cumsum`, `torch.amin`, `torch.var`, ...) are the
external backend capability; they are modelled from their documented
semantics for torch 1.11 (the `backend_version` pinned by the source file).
In particular an empty `dim` tuple passed to a torch reduction reduces over
every dimension, which is the torch 1.11 behaviour.  The functions of the
repository itself (`min`, `max`, `mean`, `sum`, `prod`, `std`, `var`,
`cumsum`, `cumprod`, `trapz`) are translated branch by branch from the
source, including their handling of the python distinction between `()`,
`[]`, `None` and integer axis arguments, and of the optional `out=` buffer:
each such function returns the pair of its result and the final contents of
the `out` buffer (`none` when no buffer was supplied).
-/

open BigOperators

/-! ### Generic index helpers -/

/-- Swap the entries at positions `a` and `b` of a list (used to model
`torch.transpose(x, a, b)` on shapes and on multi-indices).  Out-of-range
positions leave the list unchanged, as `List.set` does. -/
def swapList {α : Type} (l : List α) (a b : ℕ) (d : α) : List α :=
  (l.set a (l.getD b d)).set b (l.getD a d)

/-- All valid multi-indices of a shape, in row-major order. -/
def allIdx : List ℕ → List (List ℕ)
  | [] => [[]]
  | n :: rest => (List.range n).flatMap fun j => (allIdx rest).map fun i => j :: i

/-- A multi-index is valid for a shape when it has the same rank and is
componentwise below the extents. -/
def ValidIdx (s i : List ℕ) : Prop :=
  i.length = s.length ∧ ∀ k, k < s.length → i.getD k 0 < s.getD k 0

instance (s i : List ℕ) : Decidable (ValidIdx s i) := by
  unfold ValidIdx; infer_instance

/-- Insert a coordinate value `v` at position `d` of a multi-index (the
inverse of dropping a reduced axis when `keepdims=False`). -/
def insertAt (l : List ℕ) (d v : ℕ) : List ℕ :=
  l.take d ++ v :: l.drop d

/-- The input shape with the listed axes removed (the Array-API result shape
of a `keepdims=False` reduction). -/
def removeDims (s : List ℕ) (dims : List ℕ) : List ℕ :=
  (List.range s.length).filterMap fun j =>
    if j ∈ dims then Option.none else Option.some (s.getD j 0)

/-- The input shape with the listed axes kept as size-1 dimensions (the
result shape of a `keepdims=True` reduction). -/
def keepDims (s : List ℕ) (dims : List ℕ) : List ℕ :=
  dims.foldl (fun acc d => acc.set d 1) s

/-- All assignments of coordinate values to the reduced axes `dims`, as
association lists, for a tensor of shape `s`. -/
def dimAsgs (s : List ℕ) (dims : List ℕ) : List (List (ℕ × ℕ)) :=
  (allIdx (dims.map fun d => s.getD d 0)).map fun vs => dims.zip vs

/-- Overwrite the coordinates of a multi-index according to an assignment. -/
def applyAsg (i : List ℕ) (asg : List (ℕ × ℕ)) : List ℕ :=
  asg.foldl (fun acc dv => acc.set dv.1 dv.2) i

/-- Re-expand a reduced (`keepdims=False`) output index to a full-rank index,
placing `0` at each reduced axis and the output coordinates elsewhere. -/
def expandIdx (rank : ℕ) (dims : List ℕ) (i : List ℕ) : List ℕ :=
  ((List.range rank).foldl
    (fun acc k =>
      if k ∈ dims then (acc.1 ++ [0], acc.2)
      else (acc.1 ++ [acc.2.headD 0], acc.2.tail))
    (([] : List ℕ), i)).1

/-! ### Dtypes -/

/-- Scalar kinds distinguished by the dtype-promotion logic. -/
inductive Kind : Type
  | int : Kind
  | uint : Kind
  | float : Kind
deriving DecidableEq, Repr

/-- A dtype is a scalar kind together with a bit width (`int8` is
`⟨Kind.int, 8⟩` and so on). -/
structure Dtype : Type where
  kind : Kind
  bits : ℕ
deriving DecidableEq, Repr

/-- Modelled from the spec: `ivy.infer_default_dtype` returns the
default-width dtype of the input's kind ("a promotion rule that widens
low-precision integer/float types to a default-width type"); ivy's default
int, uint and float dtypes are the 32-bit ones. -/
def inferDefaultDtype (dt : Dtype) : Dtype :=
  ⟨dt.kind, 32⟩

/-- Modelled from the spec: membership in `ivy.valid_dtypes`; every dtype of
the model is a valid ivy dtype. -/
def validDtype (_dt : Dtype) : Bool :=
  true

/-- `ivy.dtype_bits`. -/
def dtype_bits (dt : Dtype) : ℕ :=
  dt.bits

/-- `_infer_dtype` from `statistical.py`: widen the input dtype to the
default dtype of its kind when the latter is strictly wider, otherwise keep
the input dtype.  (`ivy.as_native_dtype` is the identity of the model.) -/
def _infer_dtype (dtype : Dtype) : Dtype :=
  let default_dtype := inferDefaultDtype dtype
  if validDtype default_dtype ∧ dtype_bits dtype < dtype_bits default_dtype then
    default_dtype
  else
    dtype

/-- Resolution of an optional explicit dtype argument against the inference
rule, shared by `sum`, `prod`, `cumsum` and `cumprod`. -/
def resolveDtype (x : Dtype) : Option Dtype → Dtype
  | Option.none => _infer_dtype x
  | Option.some d => d

/-! ### Tensors -/

/-- A tensor: a dtype tag, a shape, and a total valuation on multi-indices.
Only the values at `ValidIdx`-indices are meaningful.  Casting between
dtypes is modelled as retagging (exact values are kept; the claims under
verification never exercise a narrowing conversion). -/
structure Tensor (α : Type) : Type where
  dtype : Dtype
  shape : List ℕ
  val : List ℕ → α

/-- A 1-D tensor from a list of scalars (float32-tagged). -/
def ofList1Q (l : List ℚ) : Tensor ℚ :=
  ⟨⟨Kind.float, 32⟩, [l.length], fun i => l.getD (i.getD 0 0) 0⟩

/-- A 1-D `Option ℝ`-valued tensor from a list of reals (none of whose
entries is NaN). -/
def ofList1R (l : List ℝ) : Tensor (Option ℝ) :=
  ⟨⟨Kind.float, 32⟩, [l.length], fun i => Option.some (l.getD (i.getD 0 0) 0)⟩

/-! ### Torch primitives on the rational model

These model the backend capability used by `statistical.py`, at their
documented torch 1.11 semantics. -/

/-- `torch.flip(x, dims=(k,))`. -/
def flipT (t : Tensor ℚ) (k : ℕ) : Tensor ℚ :=
  ⟨t.dtype, t.shape, fun i => t.val (i.set k (t.shape.getD k 0 - 1 - i.getD k 0))⟩

/-- `torch.transpose(x, a, b)`: swap dimensions `a` and `b`. -/
def transposeT (t : Tensor ℚ) (a b : ℕ) : Tensor ℚ :=
  ⟨t.dtype, swapList t.shape a b 0, fun i => t.val (swapList i a b 0)⟩

/-- `x[..., :-1]`: drop the last slice along the last axis (an empty last
axis stays empty, matching python slicing). -/
def dropLastT (t : Tensor ℚ) : Tensor ℚ :=
  let r := t.shape.length
  ⟨t.dtype, t.shape.set (r - 1) (t.shape.getD (r - 1) 0 - 1), t.val⟩

/-- `torch.zeros_like(x[..., -1:])` (or `ones_like`, by choice of `c`): a
tensor shaped like `x` with the last axis shrunk to `min size 1`, filled
with the constant `c`. -/
def fillLastOneT (t : Tensor ℚ) (c : ℚ) : Tensor ℚ :=
  let r := t.shape.length
  ⟨t.dtype, t.shape.set (r - 1) (min (t.shape.getD (r - 1) 0) 1), fun _ => c⟩

/-- `torch.cat((a, b), -1)`: concatenate along the last axis.  The shapes
must agree away from the last axis (as torch requires); the model reads the
left operand below its last-axis extent and the right operand above it. -/
def catLastT (a b : Tensor ℚ) : Tensor ℚ :=
  let r := a.shape.length
  let sa := a.shape.getD (r - 1) 0
  let sb := b.shape.getD (r - 1) 0
  ⟨a.dtype, a.shape.set (r - 1) (sa + sb), fun i =>
    if i.getD (r - 1) 0 < sa then a.val i
    else b.val (i.set (r - 1) (i.getD (r - 1) 0 - sa))⟩

/-- `torch.cumsum(x, k, dtype=dt)`: the native inclusive forward scan along
axis `k`, with the result cast to `dt`. -/
def cumsumNat (t : Tensor ℚ) (k : ℕ) (dt : Dtype) : Tensor ℚ :=
  ⟨dt, t.shape, fun i => ∑ j in Finset.range (i.getD k 0 + 1), t.val (i.set k j)⟩

/-- `torch.cumprod(x, k, dtype=dt)`: the native inclusive forward product
scan along axis `k`, with the result cast to `dt`. -/
def cumprodNat (t : Tensor ℚ) (k : ℕ) (dt : Dtype) : Tensor ℚ :=
  ⟨dt, t.shape, fun i => ∏ j in Finset.range (i.getD k 0 + 1), t.val (i.set k j)⟩

/-- The list of values of `t` on the slice through `i` spanned by the axes
`dims`. -/
def sliceVals {α : Type} (t : Tensor α) (dims : List ℕ) (i : List ℕ) : List α :=
  (dimAsgs t.shape dims).map fun asg => t.val (applyAsg i asg)

/-- Torch 1.11 resolution of a `dim` list for a reduction: an empty list of
dims reduces over every dimension. -/
def resolveDims (rank : ℕ) (dims : List ℕ) : List ℕ :=
  if dims.isEmpty then List.range rank else dims

/-- `torch.sum(x, dim=dims, keepdim=kd, dtype=dt)`. -/
def sumDimsT (t : Tensor ℚ) (dims : List ℕ) (kd : Bool) (dt : Dtype) : Tensor ℚ :=
  let dims := resolveDims t.shape.length dims
  if kd then
    ⟨dt, keepDims t.shape dims, fun i => (sliceVals t dims i).sum⟩
  else
    ⟨dt, removeDims t.shape dims, fun i =>
      (sliceVals t dims (expandIdx t.shape.length dims i)).sum⟩

/-- `torch.sum(x, dtype=dt)` with no `dim`: full reduction to a 0-d
tensor. -/
def sumFullT (t : Tensor ℚ) (dt : Dtype) : Tensor ℚ :=
  ⟨dt, [], fun _ => ((allIdx t.shape).map t.val).sum⟩

/-- `torch.prod(x, d, keepdim=kd, dtype=dt)` with a single integer dim. -/
def prodDimT (t : Tensor ℚ) (d : ℕ) (kd : Bool) (dt : Dtype) : Tensor ℚ :=
  if kd then
    ⟨dt, t.shape.set d 1, fun i =>
      ((List.range (t.shape.getD d 0)).map fun j => t.val (i.set d j)).prod⟩
  else
    ⟨dt, t.shape.eraseIdx d, fun i =>
      ((List.range (t.shape.getD d 0)).map fun j => t.val (insertAt i d j)).prod⟩

/-- `torch.prod(x, dtype=dt)` with no `dim`: full reduction to 0-d. -/
def prodFullT (t : Tensor ℚ) (dt : Dtype) : Tensor ℚ :=
  ⟨dt, [], fun _ => ((allIdx t.shape).map t.val).prod⟩

/-- Fold of `min` over a list of slice values; torch errors on an empty
reduction of `amin`, which the model replaces by the junk value `0` (never
exercised by the claims). -/
def foldMin : List ℚ → ℚ
  | [] => 0
  | v :: vs => vs.foldl min v

/-- Fold of `max` over a list of slice values, with the same junk value on
the empty list as `foldMin`. -/
def foldMax : List ℚ → ℚ
  | [] => 0
  | v :: vs => vs.foldl max v

/-- `torch.amin(x, dim=dims, keepdim=kd)`. -/
def aminDimsT (t : Tensor ℚ) (dims : List ℕ) (kd : Bool) : Tensor ℚ :=
  let dims := resolveDims t.shape.length dims
  if kd then
    ⟨t.dtype, keepDims t.shape dims, fun i => foldMin (sliceVals t dims i)⟩
  else
    ⟨t.dtype, removeDims t.shape dims, fun i =>
      foldMin (sliceVals t dims (expandIdx t.shape.length dims i))⟩

/-- `torch.amin(x)` with no `dim`: full reduction to 0-d. -/
def aminFullT (t : Tensor ℚ) : Tensor ℚ :=
  ⟨t.dtype, [], fun _ => foldMin ((allIdx t.shape).map t.val)⟩

/-- `torch.amax(x, dim=dims, keepdim=kd)`. -/
def amaxDimsT (t : Tensor ℚ) (dims : List ℕ) (kd : Bool) : Tensor ℚ :=
  let dims := resolveDims t.shape.length dims
  if kd then
    ⟨t.dtype, keepDims t.shape dims, fun i => foldMax (sliceVals t dims i)⟩
  else
    ⟨t.dtype, removeDims t.shape dims, fun i =>
      foldMax (sliceVals t dims (expandIdx t.shape.length dims i))⟩

/-- `torch.amax(x)` with no `dim`: full reduction to 0-d. -/
def amaxFullT (t : Tensor ℚ) : Tensor ℚ :=
  ⟨t.dtype, [], fun _ => foldMax ((allIdx t.shape).map t.val)⟩

/-- `torch.mean(x, dim=dims, keepdim=kd)`.  The model divides exactly in ℚ;
the mean of an empty slice (NaN in torch) degenerates to the junk value `0`,
never exercised by the claims. -/
def meanDimsT (t : Tensor ℚ) (dims : List ℕ) (kd : Bool) : Tensor ℚ :=
  let dims := resolveDims t.shape.length dims
  let count : ℚ := ((dims.map fun d => t.shape.getD d 0).prod : ℕ)
  if kd then
    ⟨t.dtype, keepDims t.shape dims, fun i => (sliceVals t dims i).sum / count⟩
  else
    ⟨t.dtype, removeDims t.shape dims, fun i =>
      (sliceVals t dims (expandIdx t.shape.length dims i)).sum / count⟩

/-! ### Axis arguments and python truthiness -/

/-- The four shapes an `axis` argument can take in python: `None`, an
integer, a tuple of integers, or a list of integers. -/
inductive Axis : Type
  | none : Axis
  | int : ℕ → Axis
  | tuple : List ℕ → Axis
  | list : List ℕ → Axis
deriving DecidableEq, Repr

/-- Python `axis == ()`: true exactly for the empty tuple (an empty python
list does not compare equal to the empty tuple). -/
def Axis.eqEmptyTuple : Axis → Bool
  | Axis.tuple [] => true
  | _ => false

/-- Python `axis == () or axis == []` (the test `mean` performs). -/
def Axis.eqEmptySeq : Axis → Bool
  | Axis.tuple [] => true
  | Axis.list [] => true
  | _ => false

/-- Python falsiness `not axis`: `None`, `0`, `()` and `[]` are falsy. -/
def Axis.falsy : Axis → Bool
  | Axis.none => true
  | Axis.int 0 => true
  | Axis.tuple [] => true
  | Axis.list [] => true
  | _ => false

/-- Python `axis != 0`: false only for the integer `0`. -/
def Axis.neZeroLit : Axis → Bool
  | Axis.int 0 => false
  | _ => true

/-- The dim argument handed to the torch reduction (a single-element list
for an integer axis; `None` only reaches torch where the reduction treats it
as reducing every dimension). -/
def Axis.dims : Axis → List ℕ
  | Axis.none => []
  | Axis.int k => [k]
  | Axis.tuple l => l
  | Axis.list l => l

/-- Modelled from the spec: `ivy.inplace_update(buf, res)` writes the full
result into the buffer ("the buffer's prior contents are fully overwritten,
never partially read-modified") and returns the buffer, whose contents are
now the result. -/
def inplaceUpdate (_buf : Tensor ℚ) (res : Tensor ℚ) : Tensor ℚ :=
  res

namespace Ivy

/-- `min` from `statistical.py` (torch backend).  The second component is
the final contents of the optional `out` buffer. -/
def min (x : Tensor ℚ) (axis : Axis) (keepdims : Bool) (out : Option (Tensor ℚ)) :
    Tensor ℚ × Option (Tensor ℚ) :=
  if axis.eqEmptyTuple then
    match out with
    | Option.some b => (inplaceUpdate b x, Option.some (inplaceUpdate b x))
    | Option.none => (x, Option.none)
  else if !keepdims && axis.falsy && axis.neZeroLit then
    let r := aminFullT x
    (r, out.map fun _ => r)
  else
    let r := aminDimsT x axis.dims keepdims
    (r, out.map fun _ => r)

/-- `max` from `statistical.py` (torch backend). -/
def max (x : Tensor ℚ) (axis : Axis) (keepdims : Bool) (out : Option (Tensor ℚ)) :
    Tensor ℚ × Option (Tensor ℚ) :=
  if axis.eqEmptyTuple then
    match out with
    | Option.some b => (inplaceUpdate b x, Option.some (inplaceUpdate b x))
    | Option.none => (x, Option.none)
  else if !keepdims && axis.falsy && axis.neZeroLit then
    let r := amaxFullT x
    (r, out.map fun _ => r)
  else
    let r := amaxDimsT x axis.dims keepdims
    (r, out.map fun _ => r)

/-- `mean` from `statistical.py` (torch backend). -/
def mean (x : Tensor ℚ) (axis : Axis) (keepdims : Bool) (out : Option (Tensor ℚ)) :
    Tensor ℚ × Option (Tensor ℚ) :=
  let axis := match axis with
    | Axis.none => Axis.list (List.range x.shape.length)
    | a => a
  if axis.eqEmptySeq then
    match out with
    | Option.some b => (inplaceUpdate b x, Option.some (inplaceUpdate b x))
    | Option.none => (x, Option.none)
  else
    let r := meanDimsT x axis.dims keepdims
    (r, out.map fun _ => r)

/-- `sum` from `statistical.py` (torch backend).  None of its branches
passes `out` to torch or updates it, so the buffer always keeps its prior
contents. -/
def sum (x : Tensor ℚ) (axis : Axis) (dtype : Option Dtype) (keepdims : Bool)
    (out : Option (Tensor ℚ)) : Tensor ℚ × Option (Tensor ℚ) :=
  let dtype := resolveDtype x.dtype dtype
  let ret :=
    if axis.eqEmptyTuple then
      { x with dtype := dtype }
    else
      let axis := match axis with
        | Axis.list l => Axis.tuple l
        | a => a
      match axis with
      | Axis.none => sumFullT x dtype
      | a => sumDimsT x a.dims keepdims dtype
  (ret, out)

/-- `prod` from `statistical.py` (torch backend; the source function has no
`out` parameter).  A tuple or list axis is reduced by a loop of
single-axis `torch.prod` calls. -/
def prod (x : Tensor ℚ) (axis : Axis) (dtype : Option Dtype) (keepdims : Bool) :
    Tensor ℚ :=
  let dtype := resolveDtype x.dtype dtype
  if axis.eqEmptyTuple then
    { x with dtype := dtype }
  else
    match axis with
    | Axis.none => prodFullT x dtype
    | Axis.tuple l => l.foldl (fun acc i => prodDimT acc i keepdims dtype) x
    | Axis.list l => l.foldl (fun acc i => prodDimT acc i keepdims dtype) x
    | Axis.int k => prodDimT x k keepdims dtype

/-- `cumsum` from `statistical.py` (torch backend).  In the emulated
(exclusive or reverse) branches the result is written into the `out` buffer
through `ivy.inplace_update`; in the native branch torch writes `out`
itself. -/
def cumsum (x : Tensor ℚ) (axis : ℕ) (exclusive reverse : Bool)
    (dtype : Option Dtype) (out : Option (Tensor ℚ)) :
    Tensor ℚ × Option (Tensor ℚ) :=
  let dtype := resolveDtype x.dtype dtype
  if exclusive || reverse then
    let res :=
      if exclusive && reverse then
        let x1 := cumsumNat (flipT x axis) axis dtype
        let x2 := transposeT x1 axis (x1.shape.length - 1)
        let x3 := catLastT (fillLastOneT x2 0) (dropLastT x2)
        let x4 := transposeT x3 axis (x3.shape.length - 1)
        flipT x4 axis
      else if exclusive then
        let x1 := transposeT x axis (x.shape.length - 1)
        let x2 := catLastT (fillLastOneT x1 0) (dropLastT x1)
        let x3 := cumsumNat x2 (x2.shape.length - 1) dtype
        transposeT x3 axis (x3.shape.length - 1)
      else
        flipT (cumsumNat (flipT x axis) axis dtype) axis
    match out with
    | Option.some b => (inplaceUpdate b res, Option.some (inplaceUpdate b res))
    | Option.none => (res, Option.none)
  else
    let r := cumsumNat x axis dtype
    (r, out.map fun _ => r)

/-- `cumprod` from `statistical.py` (torch backend).  Only the native
(neither exclusive nor reverse) branch passes `out` to torch; the three
emulated branches return their result without touching the buffer. -/
def cumprod (x : Tensor ℚ) (axis : ℕ) (exclusive reverse : Bool)
    (dtype : Option Dtype) (out : Option (Tensor ℚ)) :
    Tensor ℚ × Option (Tensor ℚ) :=
  let dtype := resolveDtype x.dtype dtype
  if !(exclusive || reverse) then
    let r := cumprodNat x axis dtype
    (r, out.map fun _ => r)
  else if exclusive && reverse then
    let x1 := cumprodNat (flipT x axis) axis dtype
    let x2 := transposeT x1 axis (x1.shape.length - 1)
    let x3 := catLastT (fillLastOneT x2 1) (dropLastT x2)
    let x4 := transposeT x3 axis (x3.shape.length - 1)
    (flipT x4 axis, out)
  else if exclusive then
    let x1 := transposeT x axis (x.shape.length - 1)
    let x2 := catLastT (fillLastOneT x1 1) (dropLastT x1)
    let x3 := cumprodNat x2 (x2.shape.length - 1) dtype
    (transposeT x3 axis (x3.shape.length - 1), out)
  else
    (flipT (cumprodNat (flipT x axis) axis dtype) axis, out)

end Ivy

/-! ### NaN-aware real model for variance and standard deviation

Values are `Option ℝ`, with `none` playing the role of IEEE NaN. -/

/-- NaN-propagating multiplication. -/
def mulF (a b : Option ℝ) : Option ℝ :=
  match a, b with
  | Option.some x, Option.some y => Option.some (x * y)
  | _, _ => Option.none

/-- `none` (NaN) when any entry of the list is `none`, otherwise the list of
the underlying values. -/
def seqOpt : List (Option ℝ) → Option (List ℝ)
  | [] => Option.some []
  | a :: rest => a.bind fun x => (seqOpt rest).map fun xs => x :: xs

/-- `torch.var(x, dim=dims, unbiased=u, keepdim=kd)` at its documented
semantics: with `n` the number of elements of each reduced slice, the
divisor is `n` (biased) or `n - 1` (unbiased); a nonpositive divisor (empty
slice, or a single-element slice in unbiased mode) yields NaN, torch's
documented degenerate behaviour, and otherwise the result is the sum of
squared deviations from the slice mean divided by the divisor, with NaN
inputs propagating to NaN.  An empty `dim` tuple reduces over every
dimension (torch 1.11). -/
noncomputable def torchVar (t : Tensor (Option ℝ)) (dims : List ℕ)
    (unbiased kd : Bool) : Tensor (Option ℝ) :=
  let dims := resolveDims t.shape.length dims
  let n : ℕ := (dims.map fun d => t.shape.getD d 0).prod
  let denom : ℤ := if unbiased then (n : ℤ) - 1 else (n : ℤ)
  let kval : List ℕ → Option ℝ := fun i =>
    if denom ≤ 0 then Option.none
    else
      match seqOpt (sliceVals t dims i) with
      | Option.none => Option.none
      | Option.some xs =>
        let m : ℝ := xs.sum / (n : ℝ)
        Option.some ((xs.map fun a => (a - m) ^ 2).sum / (denom : ℝ))
  if kd then
    ⟨t.dtype, keepDims t.shape dims, kval⟩
  else
    ⟨t.dtype, removeDims t.shape dims, fun i =>
      kval (expandIdx t.shape.length dims i)⟩

/-- `torch.std(...)`: the square root of `torch.var(...)`; NaN stays NaN
(and a negative variance, which cannot occur, would map to NaN as well). -/
noncomputable def torchStd (t : Tensor (Option ℝ)) (dims : List ℕ)
    (unbiased kd : Bool) : Tensor (Option ℝ) :=
  let v := torchVar t dims unbiased kd
  ⟨v.dtype, v.shape, fun i =>
    (v.val i).bind fun r =>
      if r < 0 then Option.none else Option.some (Real.sqrt r)⟩

/-- The number of elements of each reduced slice for a given axis argument:
the product of the extents along the axes the torch reduction actually
reduces (`None`, and — per torch 1.11 — an empty tuple or list, reduce over
every dimension). -/
def sizeOfAxes (x : Tensor (Option ℝ)) (axis : Axis) : ℕ :=
  let dims := match axis with
    | Axis.none => List.range x.shape.length
    | a => a.dims
  let dims := resolveDims x.shape.length dims
  (dims.map fun d => x.shape.getD d 0).prod

namespace Ivy

/-- `var` from `statistical.py` (torch backend).  `correction` is a real
scalar; the final `.to(x.dtype)` of the rescaling branch is a dtype retag
and leaves the modelled values unchanged.  The `out` parameter is accepted
but never used by the source, so the buffer keeps its prior contents. -/
noncomputable def var (x : Tensor (Option ℝ)) (axis : Axis) (correction : ℝ)
    (keepdims : Bool) (out : Option (Tensor (Option ℝ))) :
    Tensor (Option ℝ) × Option (Tensor (Option ℝ)) :=
  let axis := match axis with
    | Axis.none => Axis.list (List.range x.shape.length)
    | a => a
  let result :=
    if axis.eqEmptyTuple then
      x
    else
      let dims := axis.dims
      if correction = 0 then
        torchVar x dims false keepdims
      else if correction = 1 then
        torchVar x dims true keepdims
      else
        let size : ℕ := (dims.map fun a => x.shape.getD a 0).prod
        if (size : ℝ) - correction ≤ 0 then
          let ret := torchVar x dims false keepdims
          ⟨ret.dtype, ret.shape, fun _ => Option.none⟩
        else
          let ret := torchVar x dims false keepdims
          ⟨ret.dtype, ret.shape, fun i =>
            mulF (ret.val i)
              (Option.some ((size : ℝ) / ((size : ℝ) - correction)))⟩
  (result, out)

/-- `std` from `statistical.py` (torch backend).  The structure is that of
`var` with `torch.std` in place of `torch.var` and the rescaling factor
taken through `** 0.5` (the factor is positive in the branch that computes
it, so the python power is the real square root).  `out` is accepted but
never used. -/
noncomputable def std (x : Tensor (Option ℝ)) (axis : Axis) (correction : ℝ)
    (keepdims : Bool) (out : Option (Tensor (Option ℝ))) :
    Tensor (Option ℝ) × Option (Tensor (Option ℝ)) :=
  let axis := match axis with
    | Axis.none => Axis.list (List.range x.shape.length)
    | a => a
  let result :=
    if axis.eqEmptyTuple then
      x
    else
      let dims := axis.dims
      if correction = 0 then
        torchStd x dims false keepdims
      else if correction = 1 then
        torchStd x dims true keepdims
      else
        let size : ℕ := (dims.map fun a => x.shape.getD a 0).prod
        if (size : ℝ) - correction ≤ 0 then
          let ret := torchStd x dims false keepdims
          ⟨ret.dtype, ret.shape, fun _ => Option.none⟩
        else
          let ret := torchStd x dims false keepdims
          ⟨ret.dtype, ret.shape, fun i =>
            mulF (ret.val i)
              (Option.some (Real.sqrt
                ((size : ℝ) / ((size : ℝ) - correction))))⟩
  (result, out)

end Ivy

/-! ### The trapz dispatcher -/

/-- Errors a python function can raise. -/
inductive PyErr : Type
  | typeError : PyErr
deriving DecidableEq, Repr

/-- `torch.trapezoid(y, dx=dx, dim=...)` on the 1-D model: the dx-spaced
trapezoidal rule. -/
def trapezoidDx (y : List ℚ) (dx : ℚ) : ℚ :=
  (dx / 2) * ((y.zip y.tail).map fun p => p.1 + p.2).sum

/-- `torch.trapezoid(y, x=xs, dim=...)` on the 1-D model: the sample-point
trapezoidal rule. -/
def trapezoidX (y : List ℚ) (xs : List ℚ) : ℚ :=
  (((y.zip y.tail).zip (xs.zip xs.tail)).map fun p =>
    (p.2.2 - p.2.1) * (p.1.1 + p.1.2) / 2).sum

namespace Ivy

/-- `trapz` from `extensions/elementwise.py` (torch backend), on the 1-D
model (`axis` is accepted; for a 1-D input `-1` and `0` name the same axis
and the model ignores the argument).  The result is `Except.ok` of an
optional value, `Except.ok Option.none` modelling a fall-through that
returns python `None`.  In the branch where both `x` and `dx` are supplied
the source builds a `TypeError` but never raises it and returns nothing, so
the model returns `Except.ok Option.none` there; no branch raises. -/
def trapz (y : List ℚ) (x : Option (List ℚ)) (dx : Option ℚ) (_axis : ℤ) :
    Except PyErr (Option ℚ) :=
  match x with
  | Option.none => Except.ok (Option.some (trapezoidDx y (dx.getD 1)))
  | Option.some xs =>
    match dx with
    | Option.some _ => Except.ok Option.none
    | Option.none => Except.ok (Option.some (trapezoidX y xs))

end Ivy

set_option maxHeartbeats 1600000 in
/-- C1: on a 1-D tensor `[a,b,c]`, `cumsum` and `cumprod` honour the
`exclusive` and `reverse` flags: the inclusive forward scan is the native
`[a, a+b, a+b+c]`, `exclusive` gives `[0, a, a+b]`, `reverse` gives
`[a+b+c, b+c, c]`, both flags give `[b+c, c, 0]`, and the same construction
holds for `cumprod` with identity `1` in place of `0`. -/
theorem cumsum_cumprod_flag_table (a b c : ℚ) :
    (∀ e r, (Ivy.cumsum (ofList1Q [a, b, c]) 0 e r Option.none Option.none).1.shape = [3]
      ∧ (Ivy.cumprod (ofList1Q [a, b, c]) 0 e r Option.none Option.none).1.shape = [3])
    ∧ ((Ivy.cumsum (ofList1Q [a, b, c]) 0 false false Option.none Option.none).1.val [0] = a
      ∧ (Ivy.cumsum (ofList1Q [a, b, c]) 0 false false Option.none Option.none).1.val [1] = a + b
      ∧ (Ivy.cumsum (ofList1Q [a, b, c]) 0 false false Option.none Option.none).1.val [2] = a + b + c)
    ∧ ((Ivy.cumsum (ofList1Q [a, b, c]) 0 true false Option.none Option.none).1.val [0] = 0
      ∧ (Ivy.cumsum (ofList1Q [a, b, c]) 0 true false Option.none Option.none).1.val [1] = a
      ∧ (Ivy.cumsum (ofList1Q [a, b, c]) 0 true false Option.none Option.none).1.val [2] = a + b)
    ∧ ((Ivy.cumsum (ofList1Q [a, b, c]) 0 false true Option.none Option.none).1.val [0] = a + b + c
      ∧ (Ivy.cumsum (ofList1Q [a, b, c]) 0 false true Option.none Option.none).1.val [1] = b + c
      ∧ (Ivy.cumsum (ofList1Q [a, b, c]) 0 false true Option.none Option.none).1.val [2] = c)
    ∧ ((Ivy.cumsum (ofList1Q [a, b, c]) 0 true true Option.none Option.none).1.val [0] = b + c
      ∧ (Ivy.cumsum (ofList1Q [a, b, c]) 0 true true Option.none Option.none).1.val [1] = c
      ∧ (Ivy.cumsum (ofList1Q [a, b, c]) 0 true true Option.none Option.none).1.val [2] = 0)
    ∧ ((Ivy.cumprod (ofList1Q [a, b, c]) 0 false false Option.none Option.none).1.val [0] = a
      ∧ (Ivy.cumprod (ofList1Q [a, b, c]) 0 false false Option.none Option.none).1.val [1] = a * b
      ∧ (Ivy.cumprod (ofList1Q [a, b, c]) 0 false false Option.none Option.none).1.val [2] = a * b * c)
    ∧ ((Ivy.cumprod (ofList1Q [a, b, c]) 0 true false Option.none Option.none).1.val [0] = 1
      ∧ (Ivy.cumprod (ofList1Q [a, b, c]) 0 true false Option.none Option.none).1.val [1] = a
      ∧ (Ivy.cumprod (ofList1Q [a, b, c]) 0 true false Option.none Option.none).1.val [2] = a * b)
    ∧ ((Ivy.cumprod (ofList1Q [a, b, c]) 0 false true Option.none Option.none).1.val [0] = a * b * c
      ∧ (Ivy.cumprod (ofList1Q [a, b, c]) 0 false true Option.none Option.none).1.val [1] = b * c
      ∧ (Ivy.cumprod (ofList1Q [a, b, c]) 0 false true Option.none Option.none).1.val [2] = c)
    ∧ ((Ivy.cumprod (ofList1Q [a, b, c]) 0 true true Option.none Option.none).1.val [0] = b * c
      ∧ (Ivy.cumprod (ofList1Q [a, b, c]) 0 true true Option.none Option.none).1.val [1] = c
      ∧ (Ivy.cumprod (ofList1Q [a, b, c]) 0 true true Option.none Option.none).1.val [2] = 1) := by
  refine ⟨?_, ⟨?_, ?_, ?_⟩, ⟨?_, ?_, ?_⟩, ⟨?_, ?_, ?_⟩, ⟨?_, ?_, ?_⟩, ⟨?_, ?_, ?_⟩,
    ⟨?_, ?_, ?_⟩, ⟨?_, ?_, ?_⟩, ⟨?_, ?_, ?_⟩⟩
  case _ =>
    intro e r
    constructor
    · cases e <;> cases r <;>
        simp [Ivy.cumsum, cumsumNat, flipT, transposeT, catLastT, dropLastT, fillLastOneT,
          swapList, ofList1Q, resolveDtype, _infer_dtype]
    · cases e <;> cases r <;>
        simp [Ivy.cumprod, cumprodNat, flipT, transposeT, catLastT, dropLastT, fillLastOneT,
          swapList, ofList1Q, resolveDtype, _infer_dtype]
  all_goals
    simp [Ivy.cumsum, Ivy.cumprod, cumsumNat, cumprodNat, flipT, transposeT, catLastT,
      dropLastT, fillLastOneT, swapList, ofList1Q, resolveDtype, _infer_dtype,
      Finset.sum_range_succ, Finset.prod_range_succ]
  all_goals ring

/-- C10: a call to `trapz` that supplies both the sample-points tensor `x`
and the spacing `dx` (here `y=[1,2]`, `x=[0,1]`, `dx=2`) returns no value
(python `None`) and raises no error; more generally no input makes `trapz`
raise, so the `TypeError` it constructs for this invalid argument
combination is never actually raised. -/
theorem trapz_x_with_dx_returns_none :
    Ivy.trapz [1, 2] (Option.some [0, 1]) (Option.some 2) (-1) = Except.ok Option.none
    ∧ ∀ y x dx axis, ∃ v, Ivy.trapz y x dx axis = Except.ok v := by
  refine ⟨rfl, fun y x dx axis => ?_⟩
  cases x with
  | none => exact ⟨_, rfl⟩
  | some xs =>
    cases dx with
    | none => exact ⟨_, rfl⟩
    | some d => exact ⟨_, rfl⟩

/-- C2 counterexample: `min` with the explicit empty-LIST axis and
`keepdims=False` does reduce — on the 1-D tensor `[1,2]` it returns the 0-d
tensor holding `1`: the python test `axis == ()` does not recognise `[]`,
and an empty list is falsy, so the full-reduction `torch.amin(input=x)`
branch runs.  This contradicts the claim that the input comes back with
shape and values unchanged for an empty-list axis. -/
theorem min_empty_list_axis_reduces :
    (Ivy.min (ofList1Q [1, 2]) (Axis.list []) false Option.none).1.shape = []
    ∧ (ofList1Q [1, 2]).shape = [2]
    ∧ (Ivy.min (ofList1Q [1, 2]) (Axis.list []) false Option.none).1.val [] = 1 := by
  refine ⟨rfl, rfl, ?_⟩
  simp [Ivy.min, Axis.eqEmptyTuple, Axis.falsy, Axis.neZeroLit, aminFullT, allIdx,
    foldMin, ofList1Q, List.range_succ]

/-- C2 amended: with the explicit empty-TUPLE axis no reduction occurs in
any of the seven reductions: `min`, `max`, `mean`, `std` and `var` return
the input unchanged, and `sum` and `prod` return it retagged with the
resolved dtype.  (Of the seven, only `mean` also short-circuits the empty
python list; the other six treat `[]` differently — see the
counterexample.) -/
theorem empty_tuple_axis_identity :
    (∀ (x : Tensor ℚ) kd,
      (Ivy.min x (Axis.tuple []) kd Option.none).1 = x
      ∧ (Ivy.max x (Axis.tuple []) kd Option.none).1 = x
      ∧ (Ivy.mean x (Axis.tuple []) kd Option.none).1 = x)
    ∧ (∀ (x : Tensor ℚ) dt kd out,
      Ivy.sum x (Axis.tuple []) dt kd out = ({ x with dtype := resolveDtype x.dtype dt }, out)
      ∧ Ivy.prod x (Axis.tuple []) dt kd = { x with dtype := resolveDtype x.dtype dt })
    ∧ (∀ (y : Tensor (Option ℝ)) c kd out,
      (Ivy.var y (Axis.tuple []) c kd out).1 = y
      ∧ (Ivy.std y (Axis.tuple []) c kd out).1 = y) :=
  ⟨fun _ _ => ⟨rfl, rfl, rfl⟩, fun _ _ _ _ => ⟨rfl, rfl⟩, fun _ _ _ _ => ⟨rfl, rfl⟩⟩

/-- C9 counterexample: `cumprod` with `exclusive=True` leaves the supplied
`out` buffer untouched — on `x=[2]` with a buffer holding `[5]`, the result
is `[1]` but after the call the buffer still holds `[5]`, contradicting the
claim that the full result is written into the buffer and equals its new
contents. -/
theorem cumprod_exclusive_out_ignored :
    (Ivy.cumprod (ofList1Q [2]) 0 true false Option.none (Option.some (ofList1Q [5]))).2
      = Option.some (ofList1Q [5])
    ∧ (Ivy.cumprod (ofList1Q [2]) 0 true false Option.none (Option.some (ofList1Q [5]))).1.val [0] = 1
    ∧ (ofList1Q [5]).val [0] = 5 := by
  refine ⟨rfl, ?_, by norm_num [ofList1Q]⟩
  simp [Ivy.cumprod, cumprodNat, transposeT, catLastT, dropLastT, fillLastOneT, swapList,
    ofList1Q, resolveDtype, _infer_dtype]

/-- C9 amended: `cumsum` writes its result into the supplied `out` buffer
under every flag combination and the returned value equals the buffer's new
contents, and likewise `cumprod` when neither flag is set; but `cumprod`
with `exclusive` or with `reverse` set, and `sum`, `std` and `var`, leave
the buffer's prior contents untouched and only return the result. -/
theorem out_buffer_contract :
    (∀ x ax e r dt b, (Ivy.cumsum x ax e r dt (Option.some b)).2
        = Option.some ((Ivy.cumsum x ax e r dt (Option.some b)).1))
    ∧ (∀ x ax dt b, (Ivy.cumprod x ax false false dt (Option.some b)).2
        = Option.some ((Ivy.cumprod x ax false false dt (Option.some b)).1))
    ∧ (∀ x ax r dt out, (Ivy.cumprod x ax true r dt out).2 = out)
    ∧ (∀ x ax dt out, (Ivy.cumprod x ax false true dt out).2 = out)
    ∧ (∀ y ax c kd out, (Ivy.var y ax c kd out).2 = out ∧ (Ivy.std y ax c kd out).2 = out)
    ∧ (∀ x ax dt kd out, (Ivy.sum x ax dt kd out).2 = out) := by
  refine ⟨fun x ax e r dt b => ?_, fun _ _ _ _ => rfl, fun x ax r dt out => ?_,
    fun _ _ _ _ => rfl, fun _ _ _ _ _ => ⟨rfl, rfl⟩, fun _ _ _ _ _ => rfl⟩
  · cases e <;> cases r <;> rfl
  · cases r <;> rfl

/-- C6 (recording the bug): `prod` over the multi-element axis tuple
`(0, 1)` with `keepdims=False`, on a tensor of shape `[1,1,2]` holding
`[3,4]`, yields shape `[1]` and the value `12`, whereas the input shape with
axes 0 and 1 removed is `[2]` (with values `[3,4]` untouched): the second
loop iteration reduces the ORIGINAL axis 2, because axis indices shift
after the first `keepdim=False` reduction. -/
theorem prod_multi_axis_keepdims_false_shape_bug :
    (Ivy.prod ⟨⟨Kind.float, 32⟩, [1, 1, 2], fun i => (3 + i.getD 2 0 : ℚ)⟩
        (Axis.tuple [0, 1]) Option.none false).shape = [1]
    ∧ removeDims [1, 1, 2] [0, 1] = [2]
    ∧ (Ivy.prod ⟨⟨Kind.float, 32⟩, [1, 1, 2], fun i => (3 + i.getD 2 0 : ℚ)⟩
        (Axis.tuple [0, 1]) Option.none false).val [0] = 12 := by
  refine ⟨rfl, by decide, ?_⟩
  norm_num [Ivy.prod, prodDimT, insertAt, resolveDtype, _infer_dtype, inferDefaultDtype,
    validDtype, dtype_bits, Axis.eqEmptyTuple, List.range_succ]

theorem sumDimsT_dtype (t : Tensor ℚ) (dims : List ℕ) (kd : Bool) (dt : Dtype) :
    (sumDimsT t dims kd dt).dtype = dt := by
  unfold sumDimsT; split <;> rfl

theorem prodDimT_dtype (t : Tensor ℚ) (d : ℕ) (kd : Bool) (dt : Dtype) :
    (prodDimT t d kd dt).dtype = dt := by
  unfold prodDimT; split <;> rfl

theorem aminDimsT_dtype (t : Tensor ℚ) (dims : List ℕ) (kd : Bool) :
    (aminDimsT t dims kd).dtype = t.dtype := by
  unfold aminDimsT; split <;> rfl

theorem amaxDimsT_dtype (t : Tensor ℚ) (dims : List ℕ) (kd : Bool) :
    (amaxDimsT t dims kd).dtype = t.dtype := by
  unfold amaxDimsT; split <;> rfl

theorem meanDimsT_dtype (t : Tensor ℚ) (dims : List ℕ) (kd : Bool) :
    (meanDimsT t dims kd).dtype = t.dtype := by
  unfold meanDimsT; split <;> rfl

theorem foldl_prodDimT_dtype (kd : Bool) (dt : Dtype) :
    ∀ (l : List ℕ) (x : Tensor ℚ), l ≠ [] →
      (l.foldl (fun acc i => prodDimT acc i kd dt) x).dtype = dt
  | [], _, h => absurd rfl h
  | [_], _, _ => prodDimT_dtype ..
  | a :: b :: l, x, _ =>
    foldl_prodDimT_dtype kd dt (b :: l) (prodDimT x a kd dt) (by simp)

/-- C5 amended: with no explicit dtype, the inference rule `_infer_dtype`
used by `sum`, `prod`, `cumsum` and `cumprod` widens a low-precision input
dtype to the default-width dtype of its kind — the inferred dtype keeps the
input's kind and its bit width is at least the input's — and those
functions stamp their result with it: `sum`, `cumsum` and `cumprod` for
every axis form, `prod` for every axis form EXCEPT the explicit empty
python list (there the per-axis reduction loop runs zero times and the
input comes back with its original dtype — see the counterexample); `min`,
`max` and `mean` leave the input dtype unchanged. -/
theorem dtype_inference_widens :
    (∀ dt : Dtype, (_infer_dtype dt).kind = dt.kind ∧ dt.bits ≤ (_infer_dtype dt).bits)
    ∧ (∀ (x : Tensor ℚ) ax kd out, (Ivy.sum x ax Option.none kd out).1.dtype = _infer_dtype x.dtype)
    ∧ (∀ (x : Tensor ℚ) kd,
        (Ivy.prod x Axis.none Option.none kd).dtype = _infer_dtype x.dtype
        ∧ (∀ k, (Ivy.prod x (Axis.int k) Option.none kd).dtype = _infer_dtype x.dtype)
        ∧ (∀ l, (Ivy.prod x (Axis.tuple l) Option.none kd).dtype = _infer_dtype x.dtype)
        ∧ (∀ a l, (Ivy.prod x (Axis.list (a :: l)) Option.none kd).dtype
            = _infer_dtype x.dtype))
    ∧ (∀ (x : Tensor ℚ) k e r out,
        (Ivy.cumsum x k e r Option.none out).1.dtype = _infer_dtype x.dtype
        ∧ (Ivy.cumprod x k e r Option.none out).1.dtype = _infer_dtype x.dtype)
    ∧ (∀ (x : Tensor ℚ) ax kd out,
        (Ivy.min x ax kd out).1.dtype = x.dtype
        ∧ (Ivy.max x ax kd out).1.dtype = x.dtype
        ∧ (Ivy.mean x ax kd out).1.dtype = x.dtype) := by
  refine ⟨?_, ?_, ?_, ?_, ?_⟩
  · intro dt
    by_cases h : dt.bits < 32
    · simp [_infer_dtype, validDtype, inferDefaultDtype, dtype_bits, h]
      omega
    · simp [_infer_dtype, validDtype, inferDefaultDtype, dtype_bits, h]
  · intro x ax kd out
    rcases ax with _ | k | l | l
    · rfl
    · exact sumDimsT_dtype x [k] kd (_infer_dtype x.dtype)
    · cases l with
      | nil => rfl
      | cons a l => exact sumDimsT_dtype x (a :: l) kd (_infer_dtype x.dtype)
    · cases l with
      | nil => exact sumDimsT_dtype x [] kd (_infer_dtype x.dtype)
      | cons a l => exact sumDimsT_dtype x (a :: l) kd (_infer_dtype x.dtype)
  · intro x kd
    refine ⟨rfl, fun k => prodDimT_dtype .., fun l => ?_,
      fun a l => foldl_prodDimT_dtype kd (_infer_dtype x.dtype) (a :: l) x (by simp)⟩
    cases l with
    | nil => rfl
    | cons a l => exact foldl_prodDimT_dtype kd (_infer_dtype x.dtype) (a :: l) x (by simp)
  · intro x k e r out
    constructor
    · cases e <;> cases r <;> cases out <;> rfl
    · cases e <;> cases r <;> cases out <;> rfl
  · intro x ax kd out
    refine ⟨?_, ?_, ?_⟩
    · by_cases h1 : ax.eqEmptyTuple
      · cases out <;> simp [Ivy.min, h1, inplaceUpdate]
      · by_cases h2 : !kd && ax.falsy && ax.neZeroLit
        · simp [Ivy.min, h1, h2, aminFullT]
        · simp [Ivy.min, h1, h2, aminDimsT_dtype]
    · by_cases h1 : ax.eqEmptyTuple
      · cases out <;> simp [Ivy.max, h1, inplaceUpdate]
      · by_cases h2 : !kd && ax.falsy && ax.neZeroLit
        · simp [Ivy.max, h1, h2, amaxFullT]
        · simp [Ivy.max, h1, h2, amaxDimsT_dtype]
    · rcases ax with _ | k | l | l
      · by_cases h1 : (Axis.list (List.range x.shape.length)).eqEmptySeq
        · cases out <;> simp [Ivy.mean, h1, inplaceUpdate]
        · cases out <;> simp [Ivy.mean, h1, meanDimsT_dtype]
      · cases out <;> simp [Ivy.mean, Axis.eqEmptySeq, meanDimsT_dtype]
      · cases l with
        | nil => cases out <;> simp [Ivy.mean, Axis.eqEmptySeq, inplaceUpdate]
        | cons a l => cases out <;> simp [Ivy.mean, Axis.eqEmptySeq, meanDimsT_dtype]
      · cases l with
        | nil => cases out <;> simp [Ivy.mean, Axis.eqEmptySeq, inplaceUpdate]
        | cons a l => cases out <;> simp [Ivy.mean, Axis.eqEmptySeq, meanDimsT_dtype]

/-- C5 counterexample: `prod` with the explicit empty-LIST axis and no
explicit dtype returns the input with its original, un-widened dtype.  The
python `axis == ()` test does not match `[]`, so the tuple/list branch
runs, and its `for i in axis` loop iterates zero times: an int8 input
comes back int8, although the inference rule widens int8 to the
default-width int32 — refuting the claim that `prod` always infers a
widened output dtype. -/
theorem prod_empty_list_axis_keeps_dtype :
    (Ivy.prod ⟨⟨Kind.int, 8⟩, [2], fun i => (i.getD 0 0 : ℚ)⟩
        (Axis.list []) Option.none false).dtype = ⟨Kind.int, 8⟩
    ∧ _infer_dtype ⟨Kind.int, 8⟩ = ⟨Kind.int, 32⟩
    ∧ (⟨Kind.int, 8⟩ : Dtype) ≠ ⟨Kind.int, 32⟩ :=
  ⟨rfl, by decide, by decide⟩

theorem getD_set_self : ∀ (l : List ℕ) (k v : ℕ), k < l.length →
    (l.set k v).getD k 0 = v
  | [], k, v, h => absurd h (by simp)
  | a :: l, 0, v, _ => rfl
  | a :: l, k + 1, v, h => getD_set_self l k v (Nat.lt_of_succ_lt_succ h)

theorem getD_set_ne : ∀ (l : List ℕ) (k j v : ℕ), k ≠ j →
    (l.set k v).getD j 0 = l.getD j 0
  | [], _, _, _, _ => rfl
  | _ :: _, 0, 0, _, h => absurd rfl h
  | _ :: _, 0, _ + 1, _, _ => rfl
  | _ :: _, _ + 1, 0, _, _ => rfl
  | _ :: l, k + 1, j + 1, v, h =>
    getD_set_ne l k j v fun e => h (congrArg Nat.succ e)

theorem set_getD_self : ∀ (l : List ℕ) (k : ℕ), l.set k (l.getD k 0) = l
  | [], _ => rfl
  | _ :: _, 0 => rfl
  | a :: l, k + 1 => congrArg (a :: ·) (set_getD_self l k)

theorem length_swapList (l : List ℕ) (a b : ℕ) (d : ℕ) :
    (swapList l a b d).length = l.length := by
  simp [swapList]

theorem getD_swapList_fst (l : List ℕ) (a b : ℕ) (hb : b < l.length) :
    (swapList l a b 0).getD b 0 = l.getD a 0 := by
  unfold swapList
  exact getD_set_self _ b _ (by simpa using hb)

theorem getD_swapList_snd (l : List ℕ) (a b : ℕ) (ha : a < l.length) :
    (swapList l a b 0).getD a 0 = l.getD b 0 := by
  unfold swapList
  by_cases hab : a = b
  · subst hab
    rw [getD_set_self _ a _ (by simpa using ha)]
  · rw [getD_set_ne _ b a _ (fun e => hab e.symm), getD_set_self _ a _ ha]

theorem getD_swapList_other (l : List ℕ) (a b j : ℕ) (hja : j ≠ a) (hjb : j ≠ b) :
    (swapList l a b 0).getD j 0 = l.getD j 0 := by
  unfold swapList
  rw [getD_set_ne _ b j _ (fun e => hjb e.symm), getD_set_ne _ a j _ (fun e => hja e.symm)]

theorem swapList_self (l : List ℕ) (a : ℕ) : swapList l a a 0 = l := by
  unfold swapList
  rw [List.set_set, set_getD_self]

theorem swapList_swapList (l : List ℕ) (a b : ℕ) (ha : a < l.length) (hb : b < l.length) :
    swapList (swapList l a b 0) a b 0 = l := by
  by_cases hab : a = b
  · subst hab
    rw [swapList_self, swapList_self]
  · have h1 : (swapList l a b 0).getD b 0 = l.getD a 0 := getD_swapList_fst l a b hb
    have h2 : (swapList l a b 0).getD a 0 = l.getD b 0 := getD_swapList_snd l a b ha
    show ((swapList l a b 0).set a ((swapList l a b 0).getD b 0)).set b
        ((swapList l a b 0).getD a 0) = l
    rw [h1, h2]
    show (((l.set a (l.getD b 0)).set b (l.getD a 0)).set a (l.getD a 0)).set b (l.getD b 0) = l
    rw [List.set_comm _ _ _ (fun e => hab e.symm), List.set_set, List.set_set,
      set_getD_self, set_getD_self]

theorem flip_cumsum_flip_val (t : Tensor ℚ) (k : ℕ) (hk : k < t.shape.length)
    (dtv : Dtype) (i : List ℕ) (hi : ValidIdx t.shape i) :
    (flipT (cumsumNat (flipT t k) k dtv) k).val i
      = ∑ j in Finset.range (t.shape.getD k 0 - i.getD k 0),
          t.val (i.set k (i.getD k 0 + j)) := by
  have hlen : k < i.length := by rw [hi.1]; exact hk
  have hik : i.getD k 0 < t.shape.getD k 0 := hi.2 k hk
  show (∑ j in Finset.range
      ((i.set k (t.shape.getD k 0 - 1 - i.getD k 0)).getD k 0 + 1),
        (flipT t k).val ((i.set k (t.shape.getD k 0 - 1 - i.getD k 0)).set k j)) = _
  rw [getD_set_self _ k _ hlen]
  simp only [List.set_set, flipT]
  have hn : t.shape.getD k 0 - 1 - i.getD k 0 + 1 = t.shape.getD k 0 - i.getD k 0 := by
    omega
  rw [hn, ← Finset.sum_range_reflect]
  apply Finset.sum_congr rfl
  intro j hj
  have hjlt := Finset.mem_range.mp hj
  rw [getD_set_self _ k _ hlen]
  have harg : t.shape.getD k 0 - 1 - (t.shape.getD k 0 - i.getD k 0 - 1 - j)
      = i.getD k 0 + j := by omega
  rw [harg]

theorem flip_cumprod_flip_val (t : Tensor ℚ) (k : ℕ) (hk : k < t.shape.length)
    (dtv : Dtype) (i : List ℕ) (hi : ValidIdx t.shape i) :
    (flipT (cumprodNat (flipT t k) k dtv) k).val i
      = ∏ j in Finset.range (t.shape.getD k 0 - i.getD k 0),
          t.val (i.set k (i.getD k 0 + j)) := by
  have hlen : k < i.length := by rw [hi.1]; exact hk
  have hik : i.getD k 0 < t.shape.getD k 0 := hi.2 k hk
  show (∏ j in Finset.range
      ((i.set k (t.shape.getD k 0 - 1 - i.getD k 0)).getD k 0 + 1),
        (flipT t k).val ((i.set k (t.shape.getD k 0 - 1 - i.getD k 0)).set k j)) = _
  rw [getD_set_self _ k _ hlen]
  simp only [List.set_set, flipT]
  have hn : t.shape.getD k 0 - 1 - i.getD k 0 + 1 = t.shape.getD k 0 - i.getD k 0 := by
    omega
  rw [hn, ← Finset.prod_range_reflect]
  apply Finset.prod_congr rfl
  intro j hj
  have hjlt := Finset.mem_range.mp hj
  rw [getD_set_self _ k _ hlen]
  have harg : t.shape.getD k 0 - 1 - (t.shape.getD k 0 - i.getD k 0 - 1 - j)
      = i.getD k 0 + j := by omega
  rw [harg]

/-- C8: flip is an involution along any valid axis, and the reverse-inclusive
scan construction used by `cumsum` and `cumprod` (flip along the axis, run
the native inclusive forward scan, flip back) yields the reversed cumulative
sum / product: at each valid index the result is the sum (resp. product) of
the input values from that position to the end of the axis. -/
theorem flip_involution_and_reverse_scan (t : Tensor ℚ) (k : ℕ) (hk : k < t.shape.length) :
    ((flipT (flipT t k) k).shape = t.shape
      ∧ ∀ i, ValidIdx t.shape i → (flipT (flipT t k) k).val i = t.val i)
    ∧ (∀ dt i, ValidIdx t.shape i →
      (Ivy.cumsum t k false true dt Option.none).1.val i
        = ∑ j in Finset.range (t.shape.getD k 0 - i.getD k 0),
            t.val (i.set k (i.getD k 0 + j)))
    ∧ (∀ dt i, ValidIdx t.shape i →
      (Ivy.cumprod t k false true dt Option.none).1.val i
        = ∏ j in Finset.range (t.shape.getD k 0 - i.getD k 0),
            t.val (i.set k (i.getD k 0 + j))) := by
  refine ⟨⟨rfl, ?_⟩, fun dt i hi => ?_, fun dt i hi => ?_⟩
  · intro i hi
    have hlen : k < i.length := by rw [hi.1]; exact hk
    have hik : i.getD k 0 < t.shape.getD k 0 := hi.2 k hk
    show t.val ((i.set k (t.shape.getD k 0 - 1 - i.getD k 0)).set k
      (t.shape.getD k 0 - 1 - (i.set k (t.shape.getD k 0 - 1 - i.getD k 0)).getD k 0)) = t.val i
    rw [getD_set_self _ k _ hlen, List.set_set]
    have harg : t.shape.getD k 0 - 1 - (t.shape.getD k 0 - 1 - i.getD k 0) = i.getD k 0 := by
      omega
    rw [harg, set_getD_self]
  · exact flip_cumsum_flip_val t k hk (resolveDtype t.dtype dt) i hi
  · exact flip_cumprod_flip_val t k hk (resolveDtype t.dtype dt) i hi

/-- Witness for C8 at `t = [3, 5]`, axis 0, index `[0]`. -/
theorem flip_involution_and_reverse_scan_witness :
    0 < (ofList1Q [3, 5]).shape.length
    ∧ ValidIdx (ofList1Q [3, 5]).shape [0]
    ∧ (Ivy.cumsum (ofList1Q [3, 5]) 0 false true Option.none Option.none).1.val [0]
        = ∑ j in Finset.range ((ofList1Q [3, 5]).shape.getD 0 0 - ([0] : List ℕ).getD 0 0),
            (ofList1Q [3, 5]).val (([0] : List ℕ).set 0 (([0] : List ℕ).getD 0 0 + j)) :=
  ⟨by decide, by decide,
    (flip_involution_and_reverse_scan (ofList1Q [3, 5]) 0 (by decide)).2.1
      Option.none [0] (by decide)⟩

theorem fillLast_length (w : Tensor ℚ) (c : ℚ) :
    (fillLastOneT w c).shape.length = w.shape.length := by
  simp [fillLastOneT]

theorem catFillDrop_shape (w : Tensor ℚ) (c : ℚ) (h : 0 < w.shape.length) :
    (catLastT (fillLastOneT w c) (dropLastT w)).shape = w.shape := by
  have hr1 : w.shape.length - 1 < w.shape.length := by omega
  show (fillLastOneT w c).shape.set ((fillLastOneT w c).shape.length - 1)
      ((fillLastOneT w c).shape.getD ((fillLastOneT w c).shape.length - 1) 0
        + (dropLastT w).shape.getD ((fillLastOneT w c).shape.length - 1) 0) = w.shape
  rw [fillLast_length]
  show (w.shape.set (w.shape.length - 1) (min (w.shape.getD (w.shape.length - 1) 0) 1)).set
      (w.shape.length - 1)
      ((w.shape.set (w.shape.length - 1)
          (min (w.shape.getD (w.shape.length - 1) 0) 1)).getD (w.shape.length - 1) 0
        + (w.shape.set (w.shape.length - 1)
            (w.shape.getD (w.shape.length - 1) 0 - 1)).getD (w.shape.length - 1) 0) = w.shape
  rw [getD_set_self _ _ _ hr1, getD_set_self _ _ _ hr1, List.set_set]
  have hmin : min (w.shape.getD (w.shape.length - 1) 0) 1
      + (w.shape.getD (w.shape.length - 1) 0 - 1) = w.shape.getD (w.shape.length - 1) 0 := by
    omega
  rw [hmin, set_getD_self]

theorem cumsum_shape (t : Tensor ℚ) (k : ℕ) (e r : Bool) (dt : Option Dtype)
    (hk : k < t.shape.length) :
    (Ivy.cumsum t k e r dt Option.none).1.shape = t.shape := by
  have h0 : 0 < t.shape.length := Nat.lt_of_le_of_lt (Nat.zero_le k) hk
  have hr1 : t.shape.length - 1 < t.shape.length := by omega
  cases e <;> cases r
  · rfl
  · rfl
  · have hx2 : (catLastT (fillLastOneT (transposeT t k (t.shape.length - 1)) 0)
        (dropLastT (transposeT t k (t.shape.length - 1)))).shape
        = swapList t.shape k (t.shape.length - 1) 0 :=
      catFillDrop_shape (transposeT t k (t.shape.length - 1)) 0
        (by show 0 < (swapList t.shape k (t.shape.length - 1) 0).length
            rw [length_swapList]; exact h0)
    show swapList (catLastT (fillLastOneT (transposeT t k (t.shape.length - 1)) 0)
        (dropLastT (transposeT t k (t.shape.length - 1)))).shape k
        ((catLastT (fillLastOneT (transposeT t k (t.shape.length - 1)) 0)
          (dropLastT (transposeT t k (t.shape.length - 1)))).shape.length - 1) 0 = t.shape
    rw [hx2, length_swapList]
    exact swapList_swapList t.shape k (t.shape.length - 1) hk hr1
  · have hx3 : (catLastT
        (fillLastOneT (transposeT (cumsumNat (flipT t k) k (resolveDtype t.dtype dt)) k
          ((cumsumNat (flipT t k) k (resolveDtype t.dtype dt)).shape.length - 1)) 0)
        (dropLastT (transposeT (cumsumNat (flipT t k) k (resolveDtype t.dtype dt)) k
          ((cumsumNat (flipT t k) k (resolveDtype t.dtype dt)).shape.length - 1)))).shape
        = swapList t.shape k (t.shape.length - 1) 0 :=
      catFillDrop_shape (transposeT (cumsumNat (flipT t k) k (resolveDtype t.dtype dt)) k
          ((cumsumNat (flipT t k) k (resolveDtype t.dtype dt)).shape.length - 1)) 0
        (by show 0 < (swapList t.shape k (t.shape.length - 1) 0).length
            rw [length_swapList]; exact h0)
    show swapList (catLastT
        (fillLastOneT (transposeT (cumsumNat (flipT t k) k (resolveDtype t.dtype dt)) k
          ((cumsumNat (flipT t k) k (resolveDtype t.dtype dt)).shape.length - 1)) 0)
        (dropLastT (transposeT (cumsumNat (flipT t k) k (resolveDtype t.dtype dt)) k
          ((cumsumNat (flipT t k) k (resolveDtype t.dtype dt)).shape.length - 1)))).shape k
        ((catLastT
          (fillLastOneT (transposeT (cumsumNat (flipT t k) k (resolveDtype t.dtype dt)) k
            ((cumsumNat (flipT t k) k (resolveDtype t.dtype dt)).shape.length - 1)) 0)
          (dropLastT (transposeT (cumsumNat (flipT t k) k (resolveDtype t.dtype dt)) k
            ((cumsumNat (flipT t k) k (resolveDtype t.dtype dt)).shape.length - 1)))).shape.length
          - 1) 0 = t.shape
    rw [hx3, length_swapList]
    exact swapList_swapList t.shape k (t.shape.length - 1) hk hr1

theorem cumprod_shape (t : Tensor ℚ) (k : ℕ) (e r : Bool) (dt : Option Dtype)
    (hk : k < t.shape.length) :
    (Ivy.cumprod t k e r dt Option.none).1.shape = t.shape := by
  have h0 : 0 < t.shape.length := Nat.lt_of_le_of_lt (Nat.zero_le k) hk
  have hr1 : t.shape.length - 1 < t.shape.length := by omega
  cases e <;> cases r
  · rfl
  · rfl
  · have hx2 : (catLastT (fillLastOneT (transposeT t k (t.shape.length - 1)) 1)
        (dropLastT (transposeT t k (t.shape.length - 1)))).shape
        = swapList t.shape k (t.shape.length - 1) 0 :=
      catFillDrop_shape (transposeT t k (t.shape.length - 1)) 1
        (by show 0 < (swapList t.shape k (t.shape.length - 1) 0).length
            rw [length_swapList]; exact h0)
    show swapList (catLastT (fillLastOneT (transposeT t k (t.shape.length - 1)) 1)
        (dropLastT (transposeT t k (t.shape.length - 1)))).shape k
        ((catLastT (fillLastOneT (transposeT t k (t.shape.length - 1)) 1)
          (dropLastT (transposeT t k (t.shape.length - 1)))).shape.length - 1) 0 = t.shape
    rw [hx2, length_swapList]
    exact swapList_swapList t.shape k (t.shape.length - 1) hk hr1
  · have hx3 : (catLastT
        (fillLastOneT (transposeT (cumprodNat (flipT t k) k (resolveDtype t.dtype dt)) k
          ((cumprodNat (flipT t k) k (resolveDtype t.dtype dt)).shape.length - 1)) 1)
        (dropLastT (transposeT (cumprodNat (flipT t k) k (resolveDtype t.dtype dt)) k
          ((cumprodNat (flipT t k) k (resolveDtype t.dtype dt)).shape.length - 1)))).shape
        = swapList t.shape k (t.shape.length - 1) 0 :=
      catFillDrop_shape (transposeT (cumprodNat (flipT t k) k (resolveDtype t.dtype dt)) k
          ((cumprodNat (flipT t k) k (resolveDtype t.dtype dt)).shape.length - 1)) 1
        (by show 0 < (swapList t.shape k (t.shape.length - 1) 0).length
            rw [length_swapList]; exact h0)
    show swapList (catLastT
        (fillLastOneT (transposeT (cumprodNat (flipT t k) k (resolveDtype t.dtype dt)) k
          ((cumprodNat (flipT t k) k (resolveDtype t.dtype dt)).shape.length - 1)) 1)
        (dropLastT (transposeT (cumprodNat (flipT t k) k (resolveDtype t.dtype dt)) k
          ((cumprodNat (flipT t k) k (resolveDtype t.dtype dt)).shape.length - 1)))).shape k
        ((catLastT
          (fillLastOneT (transposeT (cumprodNat (flipT t k) k (resolveDtype t.dtype dt)) k
            ((cumprodNat (flipT t k) k (resolveDtype t.dtype dt)).shape.length - 1)) 1)
          (dropLastT (transposeT (cumprodNat (flipT t k) k (resolveDtype t.dtype dt)) k
            ((cumprodNat (flipT t k) k (resolveDtype t.dtype dt)).shape.length - 1)))).shape.length
          - 1) 0 = t.shape
    rw [hx3, length_swapList]
    exact swapList_swapList t.shape k (t.shape.length - 1) hk hr1

theorem cumsumNat_val_zero (z : Tensor ℚ) (d : ℕ) (dtv : Dtype) (j : List ℕ)
    (hj : j.getD d 0 = 0) : (cumsumNat z d dtv).val j = z.val (j.set d 0) := by
  show (∑ m in Finset.range (j.getD d 0 + 1), z.val (j.set d m)) = _
  rw [hj]
  simp

theorem cumprodNat_val_zero (z : Tensor ℚ) (d : ℕ) (dtv : Dtype) (j : List ℕ)
    (hj : j.getD d 0 = 0) : (cumprodNat z d dtv).val j = z.val (j.set d 0) := by
  show (∏ m in Finset.range (j.getD d 0 + 1), z.val (j.set d m)) = _
  rw [hj]
  simp

theorem catFillDrop_val (w : Tensor ℚ) (c : ℚ) (j : List ℕ)
    (hr : 0 < w.shape.length)
    (hj : j.getD (w.shape.length - 1) 0 = 0)
    (hw : 0 < w.shape.getD (w.shape.length - 1) 0) :
    (catLastT (fillLastOneT w c) (dropLastT w)).val j = c := by
  have hr1 : w.shape.length - 1 < w.shape.length := by omega
  show (if j.getD ((w.shape.set (w.shape.length - 1)
        (min (w.shape.getD (w.shape.length - 1) 0) 1)).length - 1) 0
      < (w.shape.set (w.shape.length - 1)
          (min (w.shape.getD (w.shape.length - 1) 0) 1)).getD
        ((w.shape.set (w.shape.length - 1)
          (min (w.shape.getD (w.shape.length - 1) 0) 1)).length - 1) 0
    then c
    else w.val (j.set ((w.shape.set (w.shape.length - 1)
        (min (w.shape.getD (w.shape.length - 1) 0) 1)).length - 1)
      (j.getD ((w.shape.set (w.shape.length - 1)
          (min (w.shape.getD (w.shape.length - 1) 0) 1)).length - 1) 0
        - (w.shape.set (w.shape.length - 1)
            (min (w.shape.getD (w.shape.length - 1) 0) 1)).getD
          ((w.shape.set (w.shape.length - 1)
            (min (w.shape.getD (w.shape.length - 1) 0) 1)).length - 1) 0))) = c
  rw [List.length_set, getD_set_self _ _ _ hr1, hj]
  rw [if_pos (by omega)]

theorem exclusive_forward_val_sum (w : Tensor ℚ) (k : ℕ) (c : ℚ) (dtv : Dtype)
    (i : List ℕ) (hk : k < w.shape.length) (h1 : w.shape.getD k 0 = 1)
    (hleni : i.length = w.shape.length) (hik0 : i.getD k 0 = 0) :
    (transposeT (cumsumNat (catLastT (fillLastOneT (transposeT w k (w.shape.length - 1)) c) (dropLastT (transposeT w k (w.shape.length - 1)))) ((catLastT (fillLastOneT (transposeT w k (w.shape.length - 1)) c) (dropLastT (transposeT w k (w.shape.length - 1)))).shape.length - 1) dtv) k
      ((cumsumNat (catLastT (fillLastOneT (transposeT w k (w.shape.length - 1)) c) (dropLastT (transposeT w k (w.shape.length - 1)))) ((catLastT (fillLastOneT (transposeT w k (w.shape.length - 1)) c) (dropLastT (transposeT w k (w.shape.length - 1)))).shape.length - 1) dtv).shape.length - 1)).val i = c := by
  have h0 : 0 < w.shape.length := Nat.lt_of_le_of_lt (Nat.zero_le k) hk
  have hr1 : w.shape.length - 1 < w.shape.length := by omega
  have hx2shape : (catLastT (fillLastOneT (transposeT w k (w.shape.length - 1)) c) (dropLastT (transposeT w k (w.shape.length - 1)))).shape = swapList w.shape k (w.shape.length - 1) 0 :=
    catFillDrop_shape (transposeT w k (w.shape.length - 1)) c
      (by show 0 < (swapList w.shape k (w.shape.length - 1) 0).length
          rw [length_swapList]; exact h0)
  have hx2len : (catLastT (fillLastOneT (transposeT w k (w.shape.length - 1)) c) (dropLastT (transposeT w k (w.shape.length - 1)))).shape.length = w.shape.length := by
    rw [hx2shape, length_swapList]
  show (cumsumNat (catLastT (fillLastOneT (transposeT w k (w.shape.length - 1)) c) (dropLastT (transposeT w k (w.shape.length - 1)))) ((catLastT (fillLastOneT (transposeT w k (w.shape.length - 1)) c) (dropLastT (transposeT w k (w.shape.length - 1)))).shape.length - 1) dtv).val
      (swapList i k ((catLastT (fillLastOneT (transposeT w k (w.shape.length - 1)) c) (dropLastT (transposeT w k (w.shape.length - 1)))).shape.length - 1) 0) = c
  rw [hx2len]
  have hjd : (swapList i k (w.shape.length - 1) 0).getD (w.shape.length - 1) 0 = 0 := by
    rw [getD_swapList_fst i k (w.shape.length - 1) (by rw [hleni]; exact hr1)]
    exact hik0
  rw [cumsumNat_val_zero (catLastT (fillLastOneT (transposeT w k (w.shape.length - 1)) c) (dropLastT (transposeT w k (w.shape.length - 1)))) (w.shape.length - 1) dtv _ hjd]
  refine catFillDrop_val (transposeT w k (w.shape.length - 1)) c _ ?_ ?_ ?_
  · show 0 < (swapList w.shape k (w.shape.length - 1) 0).length
    rw [length_swapList]; exact h0
  · show ((swapList i k (w.shape.length - 1) 0).set (w.shape.length - 1) 0).getD
      ((swapList w.shape k (w.shape.length - 1) 0).length - 1) 0 = 0
    rw [length_swapList]
    exact getD_set_self _ _ _ (by simp [swapList, hleni]; omega)
  · show 0 < (swapList w.shape k (w.shape.length - 1) 0).getD
      ((swapList w.shape k (w.shape.length - 1) 0).length - 1) 0
    rw [length_swapList, getD_swapList_fst w.shape k (w.shape.length - 1) hr1, h1]
    omega

theorem exclusive_reverse_val_sum (y : Tensor ℚ) (k : ℕ) (c : ℚ) (dtv : Dtype)
    (i : List ℕ) (hk : k < y.shape.length) (h1 : y.shape.getD k 0 = 1)
    (hleni : i.length = y.shape.length) (hik0 : i.getD k 0 = 0) :
    (flipT (transposeT (catLastT (fillLastOneT (transposeT (cumsumNat (flipT y k) k dtv) k ((cumsumNat (flipT y k) k dtv).shape.length - 1)) c) (dropLastT (transposeT (cumsumNat (flipT y k) k dtv) k ((cumsumNat (flipT y k) k dtv).shape.length - 1)))) k ((catLastT (fillLastOneT (transposeT (cumsumNat (flipT y k) k dtv) k ((cumsumNat (flipT y k) k dtv).shape.length - 1)) c) (dropLastT (transposeT (cumsumNat (flipT y k) k dtv) k ((cumsumNat (flipT y k) k dtv).shape.length - 1)))).shape.length - 1)) k).val i = c := by
  have h0 : 0 < y.shape.length := Nat.lt_of_le_of_lt (Nat.zero_le k) hk
  have hr1 : y.shape.length - 1 < y.shape.length := by omega
  have hx3shape : (catLastT (fillLastOneT (transposeT (cumsumNat (flipT y k) k dtv) k ((cumsumNat (flipT y k) k dtv).shape.length - 1)) c) (dropLastT (transposeT (cumsumNat (flipT y k) k dtv) k ((cumsumNat (flipT y k) k dtv).shape.length - 1)))).shape = swapList y.shape k (y.shape.length - 1) 0 :=
    catFillDrop_shape (transposeT (cumsumNat (flipT y k) k dtv) k ((cumsumNat (flipT y k) k dtv).shape.length - 1)) c
      (by show 0 < (swapList y.shape k (y.shape.length - 1) 0).length
          rw [length_swapList]; exact h0)
  have hx3len : (catLastT (fillLastOneT (transposeT (cumsumNat (flipT y k) k dtv) k ((cumsumNat (flipT y k) k dtv).shape.length - 1)) c) (dropLastT (transposeT (cumsumNat (flipT y k) k dtv) k ((cumsumNat (flipT y k) k dtv).shape.length - 1)))).shape.length = y.shape.length := by
    rw [hx3shape, length_swapList]
  have hgetD : (swapList (catLastT (fillLastOneT (transposeT (cumsumNat (flipT y k) k dtv) k ((cumsumNat (flipT y k) k dtv).shape.length - 1)) c) (dropLastT (transposeT (cumsumNat (flipT y k) k dtv) k ((cumsumNat (flipT y k) k dtv).shape.length - 1)))).shape k ((catLastT (fillLastOneT (transposeT (cumsumNat (flipT y k) k dtv) k ((cumsumNat (flipT y k) k dtv).shape.length - 1)) c) (dropLastT (transposeT (cumsumNat (flipT y k) k dtv) k ((cumsumNat (flipT y k) k dtv).shape.length - 1)))).shape.length - 1) 0).getD k 0 = 1 := by
    rw [hx3shape, length_swapList,
      swapList_swapList y.shape k (y.shape.length - 1) hk hr1]
    exact h1
  show (transposeT (catLastT (fillLastOneT (transposeT (cumsumNat (flipT y k) k dtv) k ((cumsumNat (flipT y k) k dtv).shape.length - 1)) c) (dropLastT (transposeT (cumsumNat (flipT y k) k dtv) k ((cumsumNat (flipT y k) k dtv).shape.length - 1)))) k ((catLastT (fillLastOneT (transposeT (cumsumNat (flipT y k) k dtv) k ((cumsumNat (flipT y k) k dtv).shape.length - 1)) c) (dropLastT (transposeT (cumsumNat (flipT y k) k dtv) k ((cumsumNat (flipT y k) k dtv).shape.length - 1)))).shape.length - 1)).val
      (i.set k ((swapList (catLastT (fillLastOneT (transposeT (cumsumNat (flipT y k) k dtv) k ((cumsumNat (flipT y k) k dtv).shape.length - 1)) c) (dropLastT (transposeT (cumsumNat (flipT y k) k dtv) k ((cumsumNat (flipT y k) k dtv).shape.length - 1)))).shape k ((catLastT (fillLastOneT (transposeT (cumsumNat (flipT y k) k dtv) k ((cumsumNat (flipT y k) k dtv).shape.length - 1)) c) (dropLastT (transposeT (cumsumNat (flipT y k) k dtv) k ((cumsumNat (flipT y k) k dtv).shape.length - 1)))).shape.length - 1) 0).getD k 0 - 1
        - i.getD k 0)) = c
  rw [hgetD, hik0]
  show (catLastT (fillLastOneT (transposeT (cumsumNat (flipT y k) k dtv) k ((cumsumNat (flipT y k) k dtv).shape.length - 1)) c) (dropLastT (transposeT (cumsumNat (flipT y k) k dtv) k ((cumsumNat (flipT y k) k dtv).shape.length - 1)))).val (swapList (i.set k (1 - 1 - 0)) k ((catLastT (fillLastOneT (transposeT (cumsumNat (flipT y k) k dtv) k ((cumsumNat (flipT y k) k dtv).shape.length - 1)) c) (dropLastT (transposeT (cumsumNat (flipT y k) k dtv) k ((cumsumNat (flipT y k) k dtv).shape.length - 1)))).shape.length - 1) 0) = c
  have hiset : i.set k (1 - 1 - 0) = i := by
    have : (1 : ℕ) - 1 - 0 = 0 := rfl
    rw [this, ← hik0, set_getD_self]
  rw [hiset, hx3len]
  refine catFillDrop_val (transposeT (cumsumNat (flipT y k) k dtv) k ((cumsumNat (flipT y k) k dtv).shape.length - 1)) c _ ?_ ?_ ?_
  · show 0 < (swapList y.shape k (y.shape.length - 1) 0).length
    rw [length_swapList]; exact h0
  · show (swapList i k (y.shape.length - 1) 0).getD
      ((swapList y.shape k (y.shape.length - 1) 0).length - 1) 0 = 0
    rw [length_swapList]
    rw [getD_swapList_fst i k (y.shape.length - 1) (by rw [hleni]; exact hr1)]
    exact hik0
  · show 0 < (swapList y.shape k (y.shape.length - 1) 0).getD
      ((swapList y.shape k (y.shape.length - 1) 0).length - 1) 0
    rw [length_swapList, getD_swapList_fst y.shape k (y.shape.length - 1) hr1, h1]
    omega

theorem exclusive_forward_val_prod (w : Tensor ℚ) (k : ℕ) (c : ℚ) (dtv : Dtype)
    (i : List ℕ) (hk : k < w.shape.length) (h1 : w.shape.getD k 0 = 1)
    (hleni : i.length = w.shape.length) (hik0 : i.getD k 0 = 0) :
    (transposeT (cumprodNat (catLastT (fillLastOneT (transposeT w k (w.shape.length - 1)) c) (dropLastT (transposeT w k (w.shape.length - 1)))) ((catLastT (fillLastOneT (transposeT w k (w.shape.length - 1)) c) (dropLastT (transposeT w k (w.shape.length - 1)))).shape.length - 1) dtv) k
      ((cumprodNat (catLastT (fillLastOneT (transposeT w k (w.shape.length - 1)) c) (dropLastT (transposeT w k (w.shape.length - 1)))) ((catLastT (fillLastOneT (transposeT w k (w.shape.length - 1)) c) (dropLastT (transposeT w k (w.shape.length - 1)))).shape.length - 1) dtv).shape.length - 1)).val i = c := by
  have h0 : 0 < w.shape.length := Nat.lt_of_le_of_lt (Nat.zero_le k) hk
  have hr1 : w.shape.length - 1 < w.shape.length := by omega
  have hx2shape : (catLastT (fillLastOneT (transposeT w k (w.shape.length - 1)) c) (dropLastT (transposeT w k (w.shape.length - 1)))).shape = swapList w.shape k (w.shape.length - 1) 0 :=
    catFillDrop_shape (transposeT w k (w.shape.length - 1)) c
      (by show 0 < (swapList w.shape k (w.shape.length - 1) 0).length
          rw [length_swapList]; exact h0)
  have hx2len : (catLastT (fillLastOneT (transposeT w k (w.shape.length - 1)) c) (dropLastT (transposeT w k (w.shape.length - 1)))).shape.length = w.shape.length := by
    rw [hx2shape, length_swapList]
  show (cumprodNat (catLastT (fillLastOneT (transposeT w k (w.shape.length - 1)) c) (dropLastT (transposeT w k (w.shape.length - 1)))) ((catLastT (fillLastOneT (transposeT w k (w.shape.length - 1)) c) (dropLastT (transposeT w k (w.shape.length - 1)))).shape.length - 1) dtv).val
      (swapList i k ((catLastT (fillLastOneT (transposeT w k (w.shape.length - 1)) c) (dropLastT (transposeT w k (w.shape.length - 1)))).shape.length - 1) 0) = c
  rw [hx2len]
  have hjd : (swapList i k (w.shape.length - 1) 0).getD (w.shape.length - 1) 0 = 0 := by
    rw [getD_swapList_fst i k (w.shape.length - 1) (by rw [hleni]; exact hr1)]
    exact hik0
  rw [cumprodNat_val_zero (catLastT (fillLastOneT (transposeT w k (w.shape.length - 1)) c) (dropLastT (transposeT w k (w.shape.length - 1)))) (w.shape.length - 1) dtv _ hjd]
  refine catFillDrop_val (transposeT w k (w.shape.length - 1)) c _ ?_ ?_ ?_
  · show 0 < (swapList w.shape k (w.shape.length - 1) 0).length
    rw [length_swapList]; exact h0
  · show ((swapList i k (w.shape.length - 1) 0).set (w.shape.length - 1) 0).getD
      ((swapList w.shape k (w.shape.length - 1) 0).length - 1) 0 = 0
    rw [length_swapList]
    exact getD_set_self _ _ _ (by simp [swapList, hleni]; omega)
  · show 0 < (swapList w.shape k (w.shape.length - 1) 0).getD
      ((swapList w.shape k (w.shape.length - 1) 0).length - 1) 0
    rw [length_swapList, getD_swapList_fst w.shape k (w.shape.length - 1) hr1, h1]
    omega

theorem exclusive_reverse_val_prod (y : Tensor ℚ) (k : ℕ) (c : ℚ) (dtv : Dtype)
    (i : List ℕ) (hk : k < y.shape.length) (h1 : y.shape.getD k 0 = 1)
    (hleni : i.length = y.shape.length) (hik0 : i.getD k 0 = 0) :
    (flipT (transposeT (catLastT (fillLastOneT (transposeT (cumprodNat (flipT y k) k dtv) k ((cumprodNat (flipT y k) k dtv).shape.length - 1)) c) (dropLastT (transposeT (cumprodNat (flipT y k) k dtv) k ((cumprodNat (flipT y k) k dtv).shape.length - 1)))) k ((catLastT (fillLastOneT (transposeT (cumprodNat (flipT y k) k dtv) k ((cumprodNat (flipT y k) k dtv).shape.length - 1)) c) (dropLastT (transposeT (cumprodNat (flipT y k) k dtv) k ((cumprodNat (flipT y k) k dtv).shape.length - 1)))).shape.length - 1)) k).val i = c := by
  have h0 : 0 < y.shape.length := Nat.lt_of_le_of_lt (Nat.zero_le k) hk
  have hr1 : y.shape.length - 1 < y.shape.length := by omega
  have hx3shape : (catLastT (fillLastOneT (transposeT (cumprodNat (flipT y k) k dtv) k ((cumprodNat (flipT y k) k dtv).shape.length - 1)) c) (dropLastT (transposeT (cumprodNat (flipT y k) k dtv) k ((cumprodNat (flipT y k) k dtv).shape.length - 1)))).shape = swapList y.shape k (y.shape.length - 1) 0 :=
    catFillDrop_shape (transposeT (cumprodNat (flipT y k) k dtv) k ((cumprodNat (flipT y k) k dtv).shape.length - 1)) c
      (by show 0 < (swapList y.shape k (y.shape.length - 1) 0).length
          rw [length_swapList]; exact h0)
  have hx3len : (catLastT (fillLastOneT (transposeT (cumprodNat (flipT y k) k dtv) k ((cumprodNat (flipT y k) k dtv).shape.length - 1)) c) (dropLastT (transposeT (cumprodNat (flipT y k) k dtv) k ((cumprodNat (flipT y k) k dtv).shape.length - 1)))).shape.length = y.shape.length := by
    rw [hx3shape, length_swapList]
  have hgetD : (swapList (catLastT (fillLastOneT (transposeT (cumprodNat (flipT y k) k dtv) k ((cumprodNat (flipT y k) k dtv).shape.length - 1)) c) (dropLastT (transposeT (cumprodNat (flipT y k) k dtv) k ((cumprodNat (flipT y k) k dtv).shape.length - 1)))).shape k ((catLastT (fillLastOneT (transposeT (cumprodNat (flipT y k) k dtv) k ((cumprodNat (flipT y k) k dtv).shape.length - 1)) c) (dropLastT (transposeT (cumprodNat (flipT y k) k dtv) k ((cumprodNat (flipT y k) k dtv).shape.length - 1)))).shape.length - 1) 0).getD k 0 = 1 := by
    rw [hx3shape, length_swapList,
      swapList_swapList y.shape k (y.shape.length - 1) hk hr1]
    exact h1
  show (transposeT (catLastT (fillLastOneT (transposeT (cumprodNat (flipT y k) k dtv) k ((cumprodNat (flipT y k) k dtv).shape.length - 1)) c) (dropLastT (transposeT (cumprodNat (flipT y k) k dtv) k ((cumprodNat (flipT y k) k dtv).shape.length - 1)))) k ((catLastT (fillLastOneT (transposeT (cumprodNat (flipT y k) k dtv) k ((cumprodNat (flipT y k) k dtv).shape.length - 1)) c) (dropLastT (transposeT (cumprodNat (flipT y k) k dtv) k ((cumprodNat (flipT y k) k dtv).shape.length - 1)))).shape.length - 1)).val
      (i.set k ((swapList (catLastT (fillLastOneT (transposeT (cumprodNat (flipT y k) k dtv) k ((cumprodNat (flipT y k) k dtv).shape.length - 1)) c) (dropLastT (transposeT (cumprodNat (flipT y k) k dtv) k ((cumprodNat (flipT y k) k dtv).shape.length - 1)))).shape k ((catLastT (fillLastOneT (transposeT (cumprodNat (flipT y k) k dtv) k ((cumprodNat (flipT y k) k dtv).shape.length - 1)) c) (dropLastT (transposeT (cumprodNat (flipT y k) k dtv) k ((cumprodNat (flipT y k) k dtv).shape.length - 1)))).shape.length - 1) 0).getD k 0 - 1
        - i.getD k 0)) = c
  rw [hgetD, hik0]
  show (catLastT (fillLastOneT (transposeT (cumprodNat (flipT y k) k dtv) k ((cumprodNat (flipT y k) k dtv).shape.length - 1)) c) (dropLastT (transposeT (cumprodNat (flipT y k) k dtv) k ((cumprodNat (flipT y k) k dtv).shape.length - 1)))).val (swapList (i.set k (1 - 1 - 0)) k ((catLastT (fillLastOneT (transposeT (cumprodNat (flipT y k) k dtv) k ((cumprodNat (flipT y k) k dtv).shape.length - 1)) c) (dropLastT (transposeT (cumprodNat (flipT y k) k dtv) k ((cumprodNat (flipT y k) k dtv).shape.length - 1)))).shape.length - 1) 0) = c
  have hiset : i.set k (1 - 1 - 0) = i := by
    have : (1 : ℕ) - 1 - 0 = 0 := rfl
    rw [this, ← hik0, set_getD_self]
  rw [hiset, hx3len]
  refine catFillDrop_val (transposeT (cumprodNat (flipT y k) k dtv) k ((cumprodNat (flipT y k) k dtv).shape.length - 1)) c _ ?_ ?_ ?_
  · show 0 < (swapList y.shape k (y.shape.length - 1) 0).length
    rw [length_swapList]; exact h0
  · show (swapList i k (y.shape.length - 1) 0).getD
      ((swapList y.shape k (y.shape.length - 1) 0).length - 1) 0 = 0
    rw [length_swapList]
    rw [getD_swapList_fst i k (y.shape.length - 1) (by rw [hleni]; exact hr1)]
    exact hik0
  · show 0 < (swapList y.shape k (y.shape.length - 1) 0).getD
      ((swapList y.shape k (y.shape.length - 1) 0).length - 1) 0
    rw [length_swapList, getD_swapList_fst y.shape k (y.shape.length - 1) hr1, h1]
    omega

/-- C7: scans complete on degenerate axes: with a size-0 scanned axis both
`cumsum` and `cumprod` return a result of the same (empty) shape for every
exclusive/reverse combination — no slice step underflows — and with a
size-1 scanned axis the shape is again preserved and the exclusive variants
(either value of `reverse`) yield the identity element, 0 for `cumsum` and
1 for `cumprod`, at every valid position. -/
theorem scan_degenerate_axis (x y : Tensor ℚ) (k : ℕ)
    (hkx : k < x.shape.length) (hky : k < y.shape.length)
    (_hx0 : x.shape.getD k 0 = 0) (hy1 : y.shape.getD k 0 = 1) :
    (∀ e r dt, (Ivy.cumsum x k e r dt Option.none).1.shape = x.shape
      ∧ (Ivy.cumprod x k e r dt Option.none).1.shape = x.shape)
    ∧ (∀ e r dt, (Ivy.cumsum y k e r dt Option.none).1.shape = y.shape
      ∧ (Ivy.cumprod y k e r dt Option.none).1.shape = y.shape)
    ∧ (∀ r dt i, ValidIdx y.shape i →
      (Ivy.cumsum y k true r dt Option.none).1.val i = 0
      ∧ (Ivy.cumprod y k true r dt Option.none).1.val i = 1) := by
  refine ⟨fun e r dt => ⟨cumsum_shape x k e r dt hkx, cumprod_shape x k e r dt hkx⟩,
    fun e r dt => ⟨cumsum_shape y k e r dt hky, cumprod_shape y k e r dt hky⟩,
    fun r dt i hi => ?_⟩
  have hleni : i.length = y.shape.length := hi.1
  have hik0 : i.getD k 0 = 0 := by
    have := hi.2 k hky
    omega
  cases r
  · exact ⟨exclusive_forward_val_sum y k 0 (resolveDtype y.dtype dt) i hky hy1 hleni hik0,
      exclusive_forward_val_prod y k 1 (resolveDtype y.dtype dt) i hky hy1 hleni hik0⟩
  · exact ⟨exclusive_reverse_val_sum y k 0 (resolveDtype y.dtype dt) i hky hy1 hleni hik0,
      exclusive_reverse_val_prod y k 1 (resolveDtype y.dtype dt) i hky hy1 hleni hik0⟩

/-- Witness for C7 at a size-0 axis tensor of shape `[0]` and the size-1
tensor `[7]`, axis 0. -/
theorem scan_degenerate_axis_witness :
    0 < (ofList1Q [7]).shape.length ∧ (ofList1Q [7]).shape.getD 0 0 = 1
    ∧ ValidIdx (ofList1Q [7]).shape [0]
    ∧ (Ivy.cumsum (ofList1Q [7]) 0 true true Option.none Option.none).1.val [0] = 0
    ∧ (Ivy.cumprod (ofList1Q [7]) 0 true false Option.none Option.none).1.val [0] = 1 :=
  ⟨by decide, by decide, by decide,
    ((scan_degenerate_axis ⟨⟨Kind.float, 32⟩, [0], fun _ => (0 : ℚ)⟩ (ofList1Q [7]) 0
      (by decide) (by decide) (by decide) (by decide)).2.2 true Option.none [0] (by decide)).1,
    ((scan_degenerate_axis ⟨⟨Kind.float, 32⟩, [0], fun _ => (0 : ℚ)⟩ (ofList1Q [7]) 0
      (by decide) (by decide) (by decide) (by decide)).2.2 false Option.none [0] (by decide)).2⟩

theorem torchVar_degenerate (t : Tensor (Option ℝ)) (dims : List ℕ) (u kd : Bool)
    (h : (if u then
        ((((resolveDims t.shape.length dims).map fun d => t.shape.getD d 0).prod : ℕ) : ℤ) - 1
      else
        ((((resolveDims t.shape.length dims).map fun d => t.shape.getD d 0).prod : ℕ) : ℤ)) ≤ 0) :
    ∀ i, (torchVar t dims u kd).val i = Option.none := by
  intro i
  cases kd
  · exact if_pos h
  · exact if_pos h

theorem torchStd_degenerate (t : Tensor (Option ℝ)) (dims : List ℕ) (u kd : Bool)
    (h : (if u then
        ((((resolveDims t.shape.length dims).map fun d => t.shape.getD d 0).prod : ℕ) : ℤ) - 1
      else
        ((((resolveDims t.shape.length dims).map fun d => t.shape.getD d 0).prod : ℕ) : ℤ)) ≤ 0) :
    ∀ i, (torchStd t dims u kd).val i = Option.none := by
  intro i
  show ((torchVar t dims u kd).val i).bind _ = Option.none
  rw [torchVar_degenerate t dims u kd h i]
  rfl

theorem var_body_degenerate (x : Tensor (Option ℝ)) (dims : List ℕ) (c : ℝ) (kd : Bool)
    (hdeg : (((resolveDims x.shape.length dims).map fun d => x.shape.getD d 0).prod : ℝ)
      - c ≤ 0) (i : List ℕ) :
    (if c = 0 then torchVar x dims false kd
      else if c = 1 then torchVar x dims true kd
      else if ((dims.map fun a => x.shape.getD a 0).prod : ℝ) - c ≤ 0 then
        ⟨(torchVar x dims false kd).dtype, (torchVar x dims false kd).shape,
          fun _ => Option.none⟩
      else
        ⟨(torchVar x dims false kd).dtype, (torchVar x dims false kd).shape,
          fun j => mulF ((torchVar x dims false kd).val j)
            (Option.some (((dims.map fun a => x.shape.getD a 0).prod : ℝ)
              / (((dims.map fun a => x.shape.getD a 0).prod : ℝ) - c)))⟩ :
        Tensor (Option ℝ)).val i = Option.none := by
  set n : ℕ := ((resolveDims x.shape.length dims).map fun d => x.shape.getD d 0).prod with hn
  by_cases hc0 : c = 0
  · rw [if_pos hc0]
    apply torchVar_degenerate
    have hle : (n : ℝ) ≤ 0 := by rw [hc0] at hdeg; linarith
    have hn0 : n = 0 := by exact_mod_cast le_antisymm hle (Nat.cast_nonneg n)
    show ((n : ℕ) : ℤ) ≤ 0
    omega
  · rw [if_neg hc0]
    by_cases hc1 : c = 1
    · rw [if_pos hc1]
      apply torchVar_degenerate
      have hle : (n : ℝ) ≤ 1 := by rw [hc1] at hdeg; linarith
      have hn1 : n ≤ 1 := by exact_mod_cast hle
      show ((n : ℕ) : ℤ) - 1 ≤ 0
      omega
    · rw [if_neg hc1]
      by_cases hsz : ((dims.map fun a => x.shape.getD a 0).prod : ℝ) - c ≤ 0
      · rw [if_pos hsz]
      · rw [if_neg hsz]
        show mulF ((torchVar x dims false kd).val i) _ = Option.none
        have hden : ((n : ℕ) : ℤ) ≤ 0 := by
          cases dims with
          | nil =>
            have h1 : ((([] : List ℕ).map fun a => x.shape.getD a 0).prod : ℝ) = 1 := by
              norm_num
            rw [h1] at hsz
            have hc : c < 1 := by linarith [not_le.mp hsz]
            have hlt : (n : ℝ) < 1 := by linarith
            have hnlt : n < 1 := by exact_mod_cast hlt
            omega
          | cons d ds =>
            exfalso
            apply hsz
            have hres : resolveDims x.shape.length (d :: ds) = d :: ds := by
              simp [resolveDims]
            have heq : (((d :: ds).map fun a => x.shape.getD a 0).prod : ℝ) = (n : ℝ) := by
              rw [hn, hres]
            linarith
        rw [torchVar_degenerate x dims false kd hden i]
        rfl

theorem std_body_degenerate (x : Tensor (Option ℝ)) (dims : List ℕ) (c : ℝ) (kd : Bool)
    (hdeg : (((resolveDims x.shape.length dims).map fun d => x.shape.getD d 0).prod : ℝ)
      - c ≤ 0) (i : List ℕ) :
    (if c = 0 then torchStd x dims false kd
      else if c = 1 then torchStd x dims true kd
      else if ((dims.map fun a => x.shape.getD a 0).prod : ℝ) - c ≤ 0 then
        ⟨(torchStd x dims false kd).dtype, (torchStd x dims false kd).shape,
          fun _ => Option.none⟩
      else
        ⟨(torchStd x dims false kd).dtype, (torchStd x dims false kd).shape,
          fun j => mulF ((torchStd x dims false kd).val j)
            (Option.some (Real.sqrt (((dims.map fun a => x.shape.getD a 0).prod : ℝ)
              / (((dims.map fun a => x.shape.getD a 0).prod : ℝ) - c))))⟩ :
        Tensor (Option ℝ)).val i = Option.none := by
  set n : ℕ := ((resolveDims x.shape.length dims).map fun d => x.shape.getD d 0).prod with hn
  by_cases hc0 : c = 0
  · rw [if_pos hc0]
    apply torchStd_degenerate
    have hle : (n : ℝ) ≤ 0 := by rw [hc0] at hdeg; linarith
    have hn0 : n = 0 := by exact_mod_cast le_antisymm hle (Nat.cast_nonneg n)
    show ((n : ℕ) : ℤ) ≤ 0
    omega
  · rw [if_neg hc0]
    by_cases hc1 : c = 1
    · rw [if_pos hc1]
      apply torchStd_degenerate
      have hle : (n : ℝ) ≤ 1 := by rw [hc1] at hdeg; linarith
      have hn1 : n ≤ 1 := by exact_mod_cast hle
      show ((n : ℕ) : ℤ) - 1 ≤ 0
      omega
    · rw [if_neg hc1]
      by_cases hsz : ((dims.map fun a => x.shape.getD a 0).prod : ℝ) - c ≤ 0
      · rw [if_pos hsz]
      · rw [if_neg hsz]
        show mulF ((torchStd x dims false kd).val i) _ = Option.none
        have hden : ((n : ℕ) : ℤ) ≤ 0 := by
          cases dims with
          | nil =>
            have h1 : ((([] : List ℕ).map fun a => x.shape.getD a 0).prod : ℝ) = 1 := by
              norm_num
            rw [h1] at hsz
            have hc : c < 1 := by linarith [not_le.mp hsz]
            have hlt : (n : ℝ) < 1 := by linarith
            have hnlt : n < 1 := by exact_mod_cast hlt
            omega
          | cons d ds =>
            exfalso
            apply hsz
            have hres : resolveDims x.shape.length (d :: ds) = d :: ds := by
              simp [resolveDims]
            have heq : (((d :: ds).map fun a => x.shape.getD a 0).prod : ℝ) = (n : ℝ) := by
              rw [hn, hres]
            linarith
        rw [torchStd_degenerate x dims false kd hden i]
        rfl

/-- C3 amended: for every axis specification other than the explicit empty
tuple, whenever `size - correction ≤ 0` — `size` being the product of the
extents along the axes the reduction actually reduces — `var` and `std`
return NaN at every position, whichever correction branch (0, 1 or custom)
applies, and no error is raised (the model is total).  With the explicit
empty tuple the empty-axis identity short-circuits first — see the
counterexample. -/
theorem var_std_degenerate_nan (x : Tensor (Option ℝ)) (axis : Axis) (c : ℝ)
    (kd : Bool) (out : Option (Tensor (Option ℝ)))
    (hax : axis ≠ Axis.tuple [])
    (hdeg : (sizeOfAxes x axis : ℝ) - c ≤ 0) :
    (∀ i, (Ivy.var x axis c kd out).1.val i = Option.none)
    ∧ (∀ i, (Ivy.std x axis c kd out).1.val i = Option.none) := by
  rcases axis with _ | k | l | l
  · exact ⟨fun i => var_body_degenerate x (List.range x.shape.length) c kd hdeg i,
      fun i => std_body_degenerate x (List.range x.shape.length) c kd hdeg i⟩
  · exact ⟨fun i => var_body_degenerate x [k] c kd hdeg i,
      fun i => std_body_degenerate x [k] c kd hdeg i⟩
  · cases l with
    | nil => exact absurd rfl hax
    | cons a l =>
      exact ⟨fun i => var_body_degenerate x (a :: l) c kd hdeg i,
        fun i => std_body_degenerate x (a :: l) c kd hdeg i⟩
  · exact ⟨fun i => var_body_degenerate x l c kd hdeg i,
      fun i => std_body_degenerate x l c kd hdeg i⟩

/-- Witness for C3 at `x = [1, 2]`, integer axis 0, `correction = 5/2` (so
`size - correction = 2 - 5/2 ≤ 0`). -/
theorem var_std_degenerate_nan_witness :
    Axis.int 0 ≠ Axis.tuple []
    ∧ (sizeOfAxes (ofList1R [1, 2]) (Axis.int 0) : ℝ) - 5 / 2 ≤ 0
    ∧ (∀ i, (Ivy.var (ofList1R [1, 2]) (Axis.int 0) (5 / 2) false Option.none).1.val i
        = Option.none)
    ∧ (∀ i, (Ivy.std (ofList1R [1, 2]) (Axis.int 0) (5 / 2) false Option.none).1.val i
        = Option.none) := by
  have h1 : Axis.int 0 ≠ Axis.tuple [] := by decide
  have h2 : (sizeOfAxes (ofList1R [1, 2]) (Axis.int 0) : ℝ) - 5 / 2 ≤ 0 := by
    have : sizeOfAxes (ofList1R [1, 2]) (Axis.int 0) = 2 := by decide
    rw [this]
    norm_num
  have h3 := var_std_degenerate_nan (ofList1R [1, 2]) (Axis.int 0) (5 / 2) false
    Option.none h1 h2
  exact ⟨h1, h2, h3.1, h3.2⟩

/-- C3 counterexample: `var` with the explicit empty-tuple axis and
`correction = 1` — so that the claim's `size` (the empty product, 1) minus
the correction is `0 ≤ 0` — returns the input unchanged (`[5]` stays
`some 5`), not NaN: the empty-axis identity branch runs before any
degenerate-sample check. -/
theorem var_empty_tuple_degenerate_not_nan :
    sizeOfAxes (ofList1R [5]) (Axis.tuple []) - 1 ≤ 0
    ∧ (Ivy.var (ofList1R [5]) (Axis.tuple []) 1 false Option.none).1.val [0]
      = Option.some 5 := by
  constructor
  · decide
  · rfl

theorem resolveDims_range (n : ℕ) : resolveDims n (List.range n) = List.range n := by
  unfold resolveDims
  split <;> rfl

theorem var_body_custom (x : Tensor (Option ℝ)) (dims : List ℕ) (c : ℝ) (kd : Bool)
    (hc0 : c ≠ 0) (hc1 : c ≠ 1)
    (hpos : ((dims.map fun a => x.shape.getD a 0).prod : ℝ) - c > 0) (i : List ℕ) :
    (if c = 0 then torchVar x dims false kd
      else if c = 1 then torchVar x dims true kd
      else if ((dims.map fun a => x.shape.getD a 0).prod : ℝ) - c ≤ 0 then
        ⟨(torchVar x dims false kd).dtype, (torchVar x dims false kd).shape,
          fun _ => Option.none⟩
      else
        ⟨(torchVar x dims false kd).dtype, (torchVar x dims false kd).shape,
          fun j => mulF ((torchVar x dims false kd).val j)
            (Option.some (((dims.map fun a => x.shape.getD a 0).prod : ℝ)
              / (((dims.map fun a => x.shape.getD a 0).prod : ℝ) - c)))⟩ :
        Tensor (Option ℝ)).val i
      = mulF ((torchVar x dims false kd).val i)
        (Option.some (((dims.map fun a => x.shape.getD a 0).prod : ℝ)
          / (((dims.map fun a => x.shape.getD a 0).prod : ℝ) - c))) := by
  rw [if_neg hc0, if_neg hc1, if_neg (not_le.mpr hpos)]

theorem std_body_custom (x : Tensor (Option ℝ)) (dims : List ℕ) (c : ℝ) (kd : Bool)
    (hc0 : c ≠ 0) (hc1 : c ≠ 1)
    (hpos : ((dims.map fun a => x.shape.getD a 0).prod : ℝ) - c > 0) (i : List ℕ) :
    (if c = 0 then torchStd x dims false kd
      else if c = 1 then torchStd x dims true kd
      else if ((dims.map fun a => x.shape.getD a 0).prod : ℝ) - c ≤ 0 then
        ⟨(torchStd x dims false kd).dtype, (torchStd x dims false kd).shape,
          fun _ => Option.none⟩
      else
        ⟨(torchStd x dims false kd).dtype, (torchStd x dims false kd).shape,
          fun j => mulF ((torchStd x dims false kd).val j)
            (Option.some (Real.sqrt (((dims.map fun a => x.shape.getD a 0).prod : ℝ)
              / (((dims.map fun a => x.shape.getD a 0).prod : ℝ) - c))))⟩ :
        Tensor (Option ℝ)).val i
      = mulF ((torchStd x dims false kd).val i)
        (Option.some (Real.sqrt (((dims.map fun a => x.shape.getD a 0).prod : ℝ)
          / (((dims.map fun a => x.shape.getD a 0).prod : ℝ) - c)))) := by
  rw [if_neg hc0, if_neg hc1, if_neg (not_le.mpr hpos)]

/-- C4 amended: for a non-empty axis specification (the explicit empty tuple
short-circuits to the identity, and the empty list makes the source compute
`size = 1` while torch reduces every dimension — see the counterexample):
with `size - correction > 0` and a correction other than 0 and 1, `var` is
the population variance (`torch.var` with `unbiased=False`) rescaled
element-wise by `size / (size - correction)` and `std` is the population
standard deviation rescaled by the square root of that factor; correction 0
delegates to the population estimator and correction 1 to the native
unbiased estimator; numerically, for `T = [1,2,3,4]`, `var` with
correction 1 is `5/3` and with correction 0 is `5/4`, and for `T = [1,3]`,
`std` with correction 0 is `1`. -/
theorem var_std_correction_semantics :
    (∀ (x : Tensor (Option ℝ)) (axis : Axis) (c : ℝ) (kd : Bool) out,
      axis ≠ Axis.tuple [] → axis ≠ Axis.list [] → c ≠ 0 → c ≠ 1 →
      (sizeOfAxes x axis : ℝ) - c > 0 →
      ∀ i, (Ivy.var x axis c kd out).1.val i
          = mulF ((torchVar x ((match axis with
                | Axis.none => Axis.list (List.range x.shape.length)
                | a => a).dims) false kd).val i)
              (Option.some ((sizeOfAxes x axis : ℝ) / ((sizeOfAxes x axis : ℝ) - c)))
        ∧ (Ivy.std x axis c kd out).1.val i
          = mulF ((torchStd x ((match axis with
                | Axis.none => Axis.list (List.range x.shape.length)
                | a => a).dims) false kd).val i)
              (Option.some (Real.sqrt
                ((sizeOfAxes x axis : ℝ) / ((sizeOfAxes x axis : ℝ) - c)))))
    ∧ (∀ (x : Tensor (Option ℝ)) (axis : Axis) (kd : Bool) out,
      axis ≠ Axis.tuple [] →
      (Ivy.var x axis 0 kd out).1 = torchVar x ((match axis with
          | Axis.none => Axis.list (List.range x.shape.length)
          | a => a).dims) false kd
      ∧ (Ivy.std x axis 0 kd out).1 = torchStd x ((match axis with
          | Axis.none => Axis.list (List.range x.shape.length)
          | a => a).dims) false kd)
    ∧ (∀ (x : Tensor (Option ℝ)) (axis : Axis) (kd : Bool) out,
      axis ≠ Axis.tuple [] →
      (Ivy.var x axis 1 kd out).1 = torchVar x ((match axis with
          | Axis.none => Axis.list (List.range x.shape.length)
          | a => a).dims) true kd
      ∧ (Ivy.std x axis 1 kd out).1 = torchStd x ((match axis with
          | Axis.none => Axis.list (List.range x.shape.length)
          | a => a).dims) true kd)
    ∧ ((Ivy.var (ofList1R [1, 2, 3, 4]) (Axis.int 0) 1 false Option.none).1.val []
        = Option.some (5 / 3)
      ∧ (Ivy.var (ofList1R [1, 2, 3, 4]) (Axis.int 0) 0 false Option.none).1.val []
        = Option.some (5 / 4)
      ∧ (Ivy.std (ofList1R [1, 3]) (Axis.int 0) 0 false Option.none).1.val []
        = Option.some 1) := by
  refine ⟨?_, ?_, ?_, ?_, ?_, ?_⟩
  · intro x axis c kd out hax1 hax2 hc0 hc1 hpos i
    rcases axis with _ | k | l | l
    · have hsz : sizeOfAxes x Axis.none
          = ((List.range x.shape.length).map fun a => x.shape.getD a 0).prod := by
        show ((resolveDims x.shape.length (List.range x.shape.length)).map
          fun d => x.shape.getD d 0).prod = _
        rw [resolveDims_range]
      rw [hsz] at hpos ⊢
      exact ⟨var_body_custom x (List.range x.shape.length) c kd hc0 hc1 hpos i,
        std_body_custom x (List.range x.shape.length) c kd hc0 hc1 hpos i⟩
    · exact ⟨var_body_custom x [k] c kd hc0 hc1 hpos i,
        std_body_custom x [k] c kd hc0 hc1 hpos i⟩
    · cases l with
      | nil => exact absurd rfl hax1
      | cons a l =>
        exact ⟨var_body_custom x (a :: l) c kd hc0 hc1 hpos i,
          std_body_custom x (a :: l) c kd hc0 hc1 hpos i⟩
    · cases l with
      | nil => exact absurd rfl hax2
      | cons a l =>
        exact ⟨var_body_custom x (a :: l) c kd hc0 hc1 hpos i,
          std_body_custom x (a :: l) c kd hc0 hc1 hpos i⟩
  · intro x axis kd out hax1
    rcases axis with _ | k | l | l
    · exact ⟨if_pos rfl, if_pos rfl⟩
    · exact ⟨if_pos rfl, if_pos rfl⟩
    · cases l with
      | nil => exact absurd rfl hax1
      | cons a l => exact ⟨if_pos rfl, if_pos rfl⟩
    · exact ⟨if_pos rfl, if_pos rfl⟩
  · intro x axis kd out hax1
    have h10 : (1 : ℝ) ≠ 0 := by norm_num
    rcases axis with _ | k | l | l
    · exact ⟨(if_neg h10).trans (if_pos rfl), (if_neg h10).trans (if_pos rfl)⟩
    · exact ⟨(if_neg h10).trans (if_pos rfl), (if_neg h10).trans (if_pos rfl)⟩
    · cases l with
      | nil => exact absurd rfl hax1
      | cons a l => exact ⟨(if_neg h10).trans (if_pos rfl), (if_neg h10).trans (if_pos rfl)⟩
    · exact ⟨(if_neg h10).trans (if_pos rfl), (if_neg h10).trans (if_pos rfl)⟩
  · norm_num [Ivy.var, torchVar, sliceVals, dimAsgs, allIdx, applyAsg, expandIdx, seqOpt,
      resolveDims, ofList1R, Axis.eqEmptyTuple, Axis.dims, keepDims, removeDims,
      List.range_succ]
  · norm_num [Ivy.var, torchVar, sliceVals, dimAsgs, allIdx, applyAsg, expandIdx, seqOpt,
      resolveDims, ofList1R, Axis.eqEmptyTuple, Axis.dims, keepDims, removeDims,
      List.range_succ]
  · norm_num [Ivy.std, torchStd, torchVar, sliceVals, dimAsgs, allIdx, applyAsg, expandIdx,
      seqOpt, resolveDims, ofList1R, Axis.eqEmptyTuple, Axis.dims, keepDims, removeDims,
      List.range_succ, Real.sqrt_one]

/-- Witness for C4 at `x = [1,2,3,4]`, integer axis 0, `correction = 2`. -/
theorem var_std_correction_semantics_witness :
    (2 : ℝ) ≠ 0 ∧ (2 : ℝ) ≠ 1
    ∧ (sizeOfAxes (ofList1R [1, 2, 3, 4]) (Axis.int 0) : ℝ) - 2 > 0
    ∧ (Ivy.var (ofList1R [1, 2, 3, 4]) (Axis.int 0) 2 false Option.none).1.val []
        = mulF ((torchVar (ofList1R [1, 2, 3, 4]) (Axis.int 0).dims false false).val [])
          (Option.some ((sizeOfAxes (ofList1R [1, 2, 3, 4]) (Axis.int 0) : ℝ)
            / ((sizeOfAxes (ofList1R [1, 2, 3, 4]) (Axis.int 0) : ℝ) - 2))) := by
  have h0 : (2 : ℝ) ≠ 0 := by norm_num
  have h1 : (2 : ℝ) ≠ 1 := by norm_num
  have hsz : sizeOfAxes (ofList1R [1, 2, 3, 4]) (Axis.int 0) = 4 := by decide
  have hpos : (sizeOfAxes (ofList1R [1, 2, 3, 4]) (Axis.int 0) : ℝ) - 2 > 0 := by
    rw [hsz]; norm_num
  exact ⟨h0, h1, hpos,
    (var_std_correction_semantics.1 (ofList1R [1, 2, 3, 4]) (Axis.int 0) 2 false
      Option.none (by decide) (by decide) h0 h1 hpos []).1⟩

/-- C4 counterexample: `var` with the explicit empty-LIST axis.  Torch
reduces every dimension there (the source converts `[]` to the empty dim
tuple), so on `[1,2,3,4]` the reduced sample has `size = 4` and with
`correction = 2` the claim demands the rescaled population variance
`(5/4) · (4/2) = 5/2`; but the source computes its `size` as the product
over the empty axis sequence, i.e. `1`, finds `1 - 2 ≤ 0` and returns NaN
everywhere instead. -/
theorem var_empty_list_custom_correction_diverges :
    sizeOfAxes (ofList1R [1, 2, 3, 4]) (Axis.list []) = 4
    ∧ (Ivy.var (ofList1R [1, 2, 3, 4]) (Axis.list []) 2 false Option.none).1.val []
      = Option.none
    ∧ mulF ((torchVar (ofList1R [1, 2, 3, 4]) (List.range 1) false false).val [])
        (Option.some ((4 : ℝ) / (4 - 2))) = Option.some (5 / 2)
    ∧ (Option.none : Option ℝ) ≠ Option.some (5 / 2) := by
  refine ⟨by decide, ?_, ?_, by simp⟩
  · have hbody : (Ivy.var (ofList1R [1, 2, 3, 4]) (Axis.list []) 2 false Option.none).1
        = ⟨(torchVar (ofList1R [1, 2, 3, 4]) [] false false).dtype,
           (torchVar (ofList1R [1, 2, 3, 4]) [] false false).shape,
           fun _ => Option.none⟩ :=
      (if_neg (by norm_num)).trans ((if_neg (by norm_num)).trans (if_pos (by norm_num [Axis.dims])))
    rw [hbody]
  · norm_num [torchVar, sliceVals, dimAsgs, allIdx, applyAsg, expandIdx, seqOpt,
      resolveDims, ofList1R, keepDims, removeDims, mulF, List.range_succ]
